import Mathlib

/-!
Shallow embedding of the go-ratelimit library (package goratelimit) and its
in-memory store, together with proofs settling the frozen claims about the
specification.

Modelling conventions:
* Instants and durations are rational numbers of seconds (`ℚ`); the Go code
  uses float64 seconds and `time.Time`/`time.Duration`; all arithmetic the
  algorithms perform (add, sub, mul, div, min, max, floor, ceil) is modelled
  exactly over `ℚ`.
* Go `int64`/`int` counters are modelled as `Int` (no overflow occurs at the
  magnitudes the algorithms handle; the spec's claims are not about overflow).
* Each in-memory engine's `AllowN` is embedded as a pure state transformer
  taking the pre-state, the current instant `now` and the cost `n`, and
  returning the decision `Result` together with the post-state.  The engine's
  mutex, context parameter and map-of-states plumbing are dropped: the claims
  are about the per-key decision for a fixed key.
* Each Redis Lua script body is embedded as a pure function over the value it
  reads from the store.
* Each Redis-backed `AllowN` additionally records the list of commands it
  issues against the store (`RCmd`), so that atomicity-shape claims (one
  script vs. a client-side multi-command sequence) can be stated.
-/

namespace GoRateLimit

/-- Decision record, from `Result` in part_001 (limiter definitions).
`resetAt` and `retryAfter` are seconds; the Go zero values (zero time,
zero duration) are modelled as `0`. -/
structure Result where
  allowed : Bool
  remaining : Int
  limit : Int
  resetAt : ℚ
  retryAfter : ℚ
deriving Repr, DecidableEq

/-- Options shared by all engines, from `Options` in part_001.  The store /
redis-client fields are not part of the decision arithmetic and are dropped;
`limitFn` is `LimitFunc` (absent = `nil`). -/
structure Options where
  keyPrefix : String
  failOpen : Bool
  hashTag : Bool
  limitFn : Option (String → Int)

/-- Default options from `defaultOptions` in part_001. -/
def defaultOptions : Options :=
  ⟨"ratelimit", true, false, none⟩

/-- Embeds `Options.resolveLimit` (part_001): the dynamic limit for `key`,
or `defaultLimit` when `LimitFunc` is nil or returns `≤ 0`. -/
def Options.resolveLimit (o : Options) (key : String) (defaultLimit : Int) : Int :=
  match o.limitFn with
  | some f => if f key > 0 then f key else defaultLimit
  | none => defaultLimit

/-- Embeds `Options.FormatKey` (part_001): `prefix:{key}` with hash-tag,
`prefix:key` without. -/
def Options.FormatKey (o : Options) (key : String) : String :=
  if o.hashTag then o.keyPrefix ++ ":\x7b" ++ key ++ "\x7d"
  else o.keyPrefix ++ ":" ++ key

/-- Embeds `Options.FormatKeySuffix` (part_001): `prefix:{key}:suffix`
with hash-tag, `prefix:key:suffix` without. -/
def Options.FormatKeySuffix (o : Options) (key suffix : String) : String :=
  if o.hashTag then o.keyPrefix ++ ":\x7b" ++ key ++ "\x7d:" ++ suffix
  else o.keyPrefix ++ ":" ++ key ++ ":" ++ suffix

/-- One command issued by a Redis-backed engine against the store during a
single `AllowN` call.  `evalScript` is an atomic server-side script
(`redis.NewScript(...).Run`); the other constructors are plain client-side
commands; `pipelineExec` is a client-side pipeline executing its batch. -/
inductive RCmd where
  | evalScript (script : String)
  | get (key : String)
  | incrBy (key : String) (n : Int)
  | expire (key : String) (ttlSeconds : ℚ)
  | zRemRangeByScore (key : String) (minScore maxScore : Int)
  | zCard (key : String)
  | zAdd (key : String) (score : Int)
  | zRangeWithScores (key : String) (start stop : Int)
  | pipelineExec (batch : List RCmd)

/-- A decision is delivered "as one atomic server-side script" exactly when
the engine's whole interaction with the store is a single `evalScript`. -/
def isSingleScript (cmds : List RCmd) : Prop :=
  ∃ s, cmds = [RCmd.evalScript s]

instance (cmds : List RCmd) : Decidable (isSingleScript cmds) := by
  unfold isSingleScript
  match cmds with
  | [RCmd.evalScript s] => exact isTrue ⟨s, rfl⟩
  | [] => exact isFalse (by rintro ⟨s, h⟩; cases h)
  | [RCmd.get k] => exact isFalse (by rintro ⟨s, h⟩; cases h)
  | [RCmd.incrBy k n] => exact isFalse (by rintro ⟨s, h⟩; cases h)
  | [RCmd.expire k t] => exact isFalse (by rintro ⟨s, h⟩; cases h)
  | [RCmd.zRemRangeByScore k a b] => exact isFalse (by rintro ⟨s, h⟩; cases h)
  | [RCmd.zCard k] => exact isFalse (by rintro ⟨s, h⟩; cases h)
  | [RCmd.zAdd k sc] => exact isFalse (by rintro ⟨s, h⟩; cases h)
  | [RCmd.zRangeWithScores k a b] => exact isFalse (by rintro ⟨s, h⟩; cases h)
  | [RCmd.pipelineExec b] => exact isFalse (by rintro ⟨s, h⟩; cases h)
  | _ :: _ :: _ => exact isFalse (by rintro ⟨s, h⟩; cases h)

-- ── Fixed window (part_013) ──────────────────────────────────────────────

/-- Per-key state of the in-memory fixed window engine
(`fixedWindowState` in part_013). -/
structure FixedWindowState where
  requests : Int
  windowStart : ℚ
deriving Repr, DecidableEq

/-- Embeds `fixedWindowMemory.AllowN` (part_013) for one key.
`st = none` models the key being absent from the state map, in which case the
code materializes `{windowStart: time.Now()}`; both `time.Now()` calls in the
body are the same instant `now`.  Returns the decision and the post-state. -/
def fixedWindowMemory.AllowN (o : Options) (maxRequests windowSeconds : Int)
    (key : String) (st : Option FixedWindowState) (now : ℚ) (n : Int) :
    Result × FixedWindowState :=
  let maxReq := o.resolveLimit key maxRequests
  let state0 := st.getD ⟨0, now⟩
  let windowDuration : ℚ := windowSeconds
  let state1 : FixedWindowState :=
    if now - state0.windowStart ≥ windowDuration then ⟨0, now⟩ else state0
  let cost : Int := n
  if state1.requests + cost ≤ maxReq then
    let requests := state1.requests + cost
    let remaining := maxReq - requests
    let resetAt := state1.windowStart + windowDuration
    (⟨true, remaining, maxReq, resetAt, 0⟩, ⟨requests, state1.windowStart⟩)
  else
    let resetAt := state1.windowStart + windowDuration
    let retryAfter := max 0 (resetAt - now)
    (⟨false, 0, maxReq, resetAt, retryAfter⟩, state1)

/-- Embeds the body of `fixedWindowScript` (part_013): input is the stored
counter (`none` when `GET` misses) and the key's remaining TTL in seconds
(negative sentinels as in Redis); output is the reply `(allowed, remaining,
ttl)` and the post-state `(counter, ttl)`.  On first increment the TTL is set
to the window duration. -/
def fixedWindowScript (maxRequests windowSeconds cost : Int)
    (stored : Option Int) (ttl0 : Int) :
    (Int × Int × Int) × (Int × Int) :=
  let count := stored.getD 0
  if count + cost ≤ maxRequests then
    let newCount := count + cost
    let ttl1 := if newCount = cost ∧ count = 0 then windowSeconds else ttl0
    let remaining := maxRequests - newCount
    ((1, remaining, ttl1), (newCount, ttl1))
  else
    let ttl1 := if ttl0 < 0 then windowSeconds else ttl0
    ((0, 0, ttl1), (count, ttl0))

/-- Embeds `fixedWindowRedis.AllowN` (part_013) given the store contents:
runs the script and translates its reply into a `Result`, recording the
commands issued.  `retryAfter` is set only on denial, from the TTL. -/
def fixedWindowRedis.AllowN (o : Options) (maxRequests windowSeconds : Int)
    (key : String) (stored : Option Int) (ttl0 : Int) (now : ℚ) (n : Int) :
    Result × (Int × Int) × List RCmd :=
  let maxReq := o.resolveLimit key maxRequests
  let run := fixedWindowScript maxReq windowSeconds n stored ttl0
  let allowed := run.1.1 = 1
  let remaining := run.1.2.1
  let ttlSec := run.1.2.2
  let resetAt := now + (ttlSec : ℚ)
  let retryAfter : ℚ := if ¬allowed then (ttlSec : ℚ) else 0
  (⟨allowed, remaining, maxReq, resetAt, retryAfter⟩, run.2,
    [RCmd.evalScript "fixedWindowScript"])

-- ── Sliding window log (src/sliding_window.go) ───────────────────────────

/-- Embeds `slidingWindowMemory.AllowN` (src/sliding_window.go) for one key.
`o` is the receiver's `opts` field, which this method never reads.
The per-key state is the timestamp list (`slidingWindowState.timestamps`).
The eviction loop advances `cutoff` while the head is strictly older than the
window, i.e. drops the maximal such prefix.  The append loop `for i := 0;
i < n; i++` appends `n` copies when `n > 0` and nothing otherwise, which
`Int.toNat` captures. -/
def slidingWindowMemory.AllowN (o : Options) (maxRequests windowSeconds : Int)
    (timestamps : List ℚ) (now : ℚ) (n : Int) :
    Result × List ℚ :=
  let windowDuration : ℚ := windowSeconds
  let evicted := timestamps.dropWhile (fun t => now - t > windowDuration)
  let cost : Int := n
  if (evicted.length : Int) + cost ≤ maxRequests then
    let appended := evicted ++ List.replicate n.toNat now
    let remaining := maxRequests - (appended.length : Int)
    (⟨true, remaining, maxRequests, 0, 0⟩, appended)
  else
    let retryAfter : ℚ :=
      match evicted with
      | [] => 0
      | oldest :: _ => max 0 (oldest + windowDuration - now)
    (⟨false, 0, maxRequests, 0, retryAfter⟩, evicted)

/-- Embeds `slidingWindowRedis.AllowN` (src/sliding_window.go) given the
stored sorted set for the key, modelled as its ascending list of
epoch-millisecond scores (members only disambiguate identical scores and are
dropped).  `now` is `time.Now().UnixMilli()`.  Returns the decision, the
post-state and the list of commands issued against the store:
`ZREMRANGEBYSCORE`, `ZCARD`, then on allow a client-side pipeline of `n`
`ZADD`s plus `EXPIRE`, or on denial a `ZRANGE 0 0` to find the oldest entry.
No server-side script is involved. -/
def slidingWindowRedis.AllowN (o : Options) (maxRequests windowSeconds : Int)
    (key : String) (scores : List Int) (now : Int) (n : Int) :
    Result × List Int × List RCmd :=
  let fullKey := o.FormatKey key
  let windowStart := now - windowSeconds * 1000
  -- ZREMRANGEBYSCORE key 0 windowStart removes scores in [0, windowStart]
  let evicted := scores.filter (fun s => ¬ (0 ≤ s ∧ s ≤ windowStart))
  let count : Int := evicted.length
  let cost : Int := n
  if count + cost ≤ maxRequests then
    let appended := evicted ++ List.replicate n.toNat now
    let remaining := maxRequests - count - cost
    (⟨true, remaining, maxRequests, 0, 0⟩, appended,
      [RCmd.zRemRangeByScore fullKey 0 windowStart, RCmd.zCard fullKey,
       RCmd.pipelineExec (List.replicate n.toNat (RCmd.zAdd fullKey now) ++
         [RCmd.expire fullKey (windowSeconds : ℚ)])])
  else
    let retryAfter : ℚ :=
      match evicted with
      | [] => (windowSeconds : ℚ)
      | oldestMs :: _ =>
        let expiresAt := oldestMs + windowSeconds * 1000
        let retryMs := expiresAt - now
        if 0 < retryMs ∧ retryMs ≤ windowSeconds * 1000 then
          (retryMs : ℚ) / 1000
        else (windowSeconds : ℚ)
    (⟨false, 0, maxRequests, 0, retryAfter⟩, evicted,
      [RCmd.zRemRangeByScore fullKey 0 windowStart, RCmd.zCard fullKey,
       RCmd.zRangeWithScores fullKey 0 0])

/-- Runs a sequence of `(now, n)` calls of the in-memory sliding window log
engine for one key, starting from `timestamps`, returning the final
timestamp list (`Reset` in the source restores the empty initial state). -/
def slidingWindowMemory.run (o : Options) (maxRequests windowSeconds : Int)
    (calls : List (ℚ × Int)) (timestamps : List ℚ) : List ℚ :=
  match calls with
  | [] => timestamps
  | (now, n) :: rest =>
    slidingWindowMemory.run o maxRequests windowSeconds rest
      (slidingWindowMemory.AllowN o maxRequests windowSeconds timestamps now n).2

-- ── Sliding window counter (part_006) ────────────────────────────────────

/-- Per-key state of the in-memory sliding window counter
(`slidingWindowCounterState` in part_006). -/
structure SwcState where
  windowStart : ℚ
  previousCount : Int
  currentCount : Int
deriving Repr, DecidableEq

/-- Embeds the rollover loop of `slidingWindowCounterMemory.AllowN`
(part_006): `for now.Sub(windowStart) ≥ windowDuration` shift previous ←
current, zero current, advance the window start by one duration.  The `0 < W`
conjunct makes the recursion well-founded; the constructor guarantees
`windowSeconds > 0`, under which it never changes the loop's meaning. -/
def swcRollover (W now : ℚ) (st : SwcState) : SwcState :=
  if h : 0 < W ∧ now - st.windowStart ≥ W then
    swcRollover W now ⟨st.windowStart + W, st.currentCount, 0⟩
  else st
termination_by (⌈(now - st.windowStart) / W⌉ : ℤ).toNat
decreasing_by
  have hW : 0 < W := h.1
  have hx : W ≤ now - st.windowStart := h.2
  have h1 : (1 : ℚ) ≤ (now - st.windowStart) / W := (one_le_div hW).mpr hx
  have hsub : now - (st.windowStart + W) = (now - st.windowStart) - W := by ring
  have hdiv : (now - (st.windowStart + W)) / W = (now - st.windowStart) / W - 1 := by
    rw [hsub, sub_div, div_self (ne_of_gt hW)]
  have hceil : (⌈(now - (st.windowStart + W)) / W⌉ : ℤ) =
      ⌈(now - st.windowStart) / W⌉ - 1 := by
    rw [hdiv]
    exact_mod_cast Int.ceil_sub_int ((now - st.windowStart) / W) 1
  have hone : (1 : ℤ) ≤ ⌈(now - st.windowStart) / W⌉ :=
    Int.one_le_ceil_iff.mpr (lt_of_lt_of_le zero_lt_one h1)
  omega

/-- Embeds `slidingWindowCounterMemory.AllowN` (part_006) for one key.
`o` is the receiver's `opts` field, which this method never reads.
`st = none` models first observation (the code materializes
`{windowStart: time.Now()}`).  `remaining` is `max(0, ⌊limit - estimate⌋)`;
the denial `retryAfter` is `⌈W·(1-elapsedFraction)⌉` seconds, raised to at
least one second. -/
def slidingWindowCounterMemory.AllowN (o : Options) (maxRequests windowSeconds : Int)
    (st : Option SwcState) (now : ℚ) (n : Int) :
    Result × SwcState :=
  let windowDuration : ℚ := windowSeconds
  let state0 := st.getD ⟨now, 0, 0⟩
  let state1 := swcRollover windowDuration now state0
  let elapsedFraction := (now - state1.windowStart) / (windowSeconds : ℚ)
  let prevWeight := (state1.previousCount : ℚ) * (1 - elapsedFraction)
  let estimatedCount := prevWeight + (state1.currentCount : ℚ)
  let cost : ℚ := n
  if estimatedCount + cost ≤ (maxRequests : ℚ) then
    let curr := state1.currentCount + n
    let newEstimate := prevWeight + (curr : ℚ)
    let remaining := max 0 ⌊(maxRequests : ℚ) - newEstimate⌋
    (⟨true, remaining, maxRequests, 0, 0⟩,
      ⟨state1.windowStart, state1.previousCount, curr⟩)
  else
    let retryAfter : ℚ := max 1 ((⌈(windowSeconds : ℚ) * (1 - elapsedFraction)⌉ : ℤ) : ℚ)
    (⟨false, 0, maxRequests, 0, retryAfter⟩, state1)

/-- Embeds the current-window storage key built by
`slidingWindowCounterRedis.AllowN` (part_006):
`fmt.Sprintf("%s:%s:%d", prefix, key, window)`.  Note it is built from the
raw prefix, not via `Options.FormatKey`/`FormatKeySuffix`, so the `HashTag`
option never reaches it. -/
def slidingWindowCounterRedis.windowKey (o : Options) (key : String)
    (window : Int) : String :=
  o.keyPrefix ++ ":" ++ key ++ ":" ++ toString window

/-- Embeds `slidingWindowCounterRedis.AllowN` (part_006) given the stored
counters for the previous and current window keys (`none` = `redis.Nil`
miss, parsed as 0).  `now` is `time.Now().Unix()`; `now/W` and `now%W`
follow Go's truncated division, which agrees with Lean's on the nonnegative
timestamps this models.  Returns the decision, the post-value of the
current-window counter and the issued commands: two `GET`s, then on allow an
`INCRBY` plus, when the counter was fresh, an `EXPIRE` — no script. -/
def slidingWindowCounterRedis.AllowN (o : Options) (maxRequests windowSeconds : Int)
    (key : String) (prevStored currStored : Option Int) (now : Int) (n : Int) :
    Result × Option Int × List RCmd :=
  let currentWindow := now / windowSeconds
  let previousWindow := currentWindow - 1
  let elapsed : ℚ := ((now % windowSeconds : Int) : ℚ) / (windowSeconds : ℚ)
  let currentKey := slidingWindowCounterRedis.windowKey o key currentWindow
  let previousKey := slidingWindowCounterRedis.windowKey o key previousWindow
  let prevCount : ℚ := (prevStored.getD 0 : Int)
  let weightedPrev := prevCount * (1 - elapsed)
  let currentCount : ℚ := (currStored.getD 0 : Int)
  let estimatedCount := weightedPrev + currentCount
  let cost : ℚ := n
  if estimatedCount + cost > (maxRequests : ℚ) then
    let r0 := ⌈(windowSeconds : ℚ) * (1 - elapsed)⌉
    let r1 := if r0 < 1 then 1 else r0
    let retryAfter := if r1 > windowSeconds then windowSeconds else r1
    (⟨false, 0, maxRequests, 0, (retryAfter : ℚ)⟩, currStored,
      [RCmd.get previousKey, RCmd.get currentKey])
  else
    let newCount := currStored.getD 0 + n
    let expireCmds :=
      if newCount = n then
        [RCmd.expire currentKey ((windowSeconds * 2 : Int) : ℚ)]
      else []
    let newEstimate := weightedPrev + (newCount : ℚ)
    let remaining := max 0 ⌊(maxRequests : ℚ) - newEstimate⌋
    (⟨true, remaining, maxRequests, 0, 0⟩, some newCount,
      [RCmd.get previousKey, RCmd.get currentKey,
        RCmd.incrBy currentKey n] ++ expireCmds)

-- ── Token bucket (src/token_bucket.go) ───────────────────────────────────

/-- Per-key state of the token bucket (`tokenBucketState`). -/
structure TokenBucketState where
  tokens : ℚ
  lastRefill : ℚ
deriving Repr, DecidableEq

/-- Embeds `tokenBucketMemory.AllowN` (src/token_bucket.go) for one key.
`o` is the receiver's `opts` field, which this method never reads.
`st = none` models first observation: the code materializes
`{tokens: capacity, lastRefill: time.Now()}`; both `time.Now()` calls in the
body are the same instant `now`. -/
def tokenBucketMemory.AllowN (o : Options) (capacity refillRate : Int)
    (st : Option TokenBucketState) (now : ℚ) (n : Int) :
    Result × TokenBucketState :=
  let state0 := st.getD ⟨(capacity : ℚ), now⟩
  let elapsed := now - state0.lastRefill
  let tokens := min (capacity : ℚ) (state0.tokens + elapsed * (refillRate : ℚ))
  let cost : ℚ := n
  if tokens ≥ cost then
    let tokens1 := tokens - cost
    let remaining := ⌊tokens1⌋
    (⟨true, remaining, capacity, 0, 0⟩, ⟨tokens1, now⟩)
  else
    let deficit := cost - tokens
    let retryAfter : ℚ := ((⌈deficit / (refillRate : ℚ)⌉ : ℤ) : ℚ)
    (⟨false, 0, capacity, 0, retryAfter⟩, ⟨tokens, now⟩)

/-- Embeds the body of `tokenBucketScript` (src/token_bucket.go): input is
the stored hash (`none` = key absent; fields `tokens` and `last_refill`),
output is the reply `(allowed, remaining, retry_after)` and the hash written
back.  Note the reply's `remaining` is initialized to `⌊tokens⌋` after the
refill and is only overwritten in the allow branch, so a denial reports
`⌊tokens⌋`, not 0. -/
def tokenBucketScript (maxTokens refillRate : Int) (now cost : ℚ)
    (stored : Option TokenBucketState) :
    (Int × Int × Int) × TokenBucketState :=
  let state0 := stored.getD ⟨(maxTokens : ℚ), now⟩
  let elapsed := now - state0.lastRefill
  let tokens := min (maxTokens : ℚ) (state0.tokens + elapsed * (refillRate : ℚ))
  if tokens ≥ cost then
    let tokens1 := tokens - cost
    ((1, ⌊tokens1⌋, 0), ⟨tokens1, now⟩)
  else
    let deficit := cost - tokens
    ((0, ⌊tokens⌋, ⌈deficit / (refillRate : ℚ)⌉), ⟨tokens, now⟩)

/-- Embeds `tokenBucketRedis.AllowN` (src/token_bucket.go) given the stored
hash: runs the script and translates its reply `(allowed, remaining,
retry_after_seconds)` into a `Result`. -/
def tokenBucketRedis.AllowN (o : Options) (capacity refillRate : Int)
    (key : String) (stored : Option TokenBucketState) (now : ℚ) (n : Int) :
    Result × TokenBucketState × List RCmd :=
  let run := tokenBucketScript capacity refillRate now (n : ℚ) stored
  let allowed := run.1.1 = 1
  let remaining := run.1.2.1
  let retryAfterSec := run.1.2.2
  (⟨allowed, remaining, capacity, 0, (retryAfterSec : ℚ)⟩, run.2,
    [RCmd.evalScript "tokenBucketScript"])

-- ── Leaky bucket (part_011) ──────────────────────────────────────────────

/-- Per-key state of the in-memory leaky bucket (`leakyBucketState` in
part_011): `level`/`lastLeak` serve policing, `nextFree` serves shaping. -/
structure LeakyBucketState where
  level : ℚ
  lastLeak : ℚ
  nextFree : ℚ
deriving Repr, DecidableEq

/-- Embeds `leakyBucketMemory.allowPolicing` (part_011) for one key.
`o` is the receiver's `opts` field, which this method never reads.
`st = none` models first observation (`{lastLeak: now, nextFree: now}`).
`capacity` and `leakRate` are the constructor's int64 values converted to
float64, and `limit` is the int64 capacity. -/
def leakyBucketMemory.allowPolicing (o : Options) (capacity leakRate : Int)
    (st : Option LeakyBucketState) (now : ℚ) (n : Int) :
    Result × LeakyBucketState :=
  let state0 := st.getD ⟨0, now, now⟩
  let elapsed := now - state0.lastLeak
  let leaked := elapsed * (leakRate : ℚ)
  let level := max 0 (state0.level - leaked)
  let cost : ℚ := n
  if level + cost ≤ (capacity : ℚ) then
    let level1 := level + cost
    let remaining := max 0 ⌊(capacity : ℚ) - level1⌋
    (⟨true, remaining, capacity, 0, 0⟩, ⟨level1, now, state0.nextFree⟩)
  else
    let retryAfter : ℚ := ((⌈cost / (leakRate : ℚ)⌉ : ℤ) : ℚ)
    (⟨false, 0, capacity, 0, retryAfter⟩, ⟨level, now, state0.nextFree⟩)

/-- Embeds `leakyBucketMemory.allowShaping` (part_011) for one key.
`o` is the receiver's `opts` field, which this method never reads.
On allow the caller is told to wait `delay = nextFree - now` (returned in
`retryAfter`) and the virtual next-free slot advances by `cost / leakRate`
seconds; on denial the result carries no retry hint. -/
def leakyBucketMemory.allowShaping (o : Options) (capacity leakRate : Int)
    (st : Option LeakyBucketState) (now : ℚ) (n : Int) :
    Result × LeakyBucketState :=
  let state0 := st.getD ⟨0, now, now⟩
  let nextFree := if state0.nextFree < now then now else state0.nextFree
  let delayDuration := nextFree - now
  let queueDepth := delayDuration * (leakRate : ℚ)
  let cost : ℚ := n
  if queueDepth + cost ≤ (capacity : ℚ) then
    let delay := delayDuration
    let nextFree1 := nextFree + cost / (leakRate : ℚ)
    let queueDepth1 := queueDepth + cost
    let remaining := max 0 ⌊(capacity : ℚ) - queueDepth1⌋
    (⟨true, remaining, capacity, 0, delay⟩, ⟨state0.level, state0.lastLeak, nextFree1⟩)
  else
    (⟨false, 0, capacity, 0, 0⟩, ⟨state0.level, state0.lastLeak, nextFree⟩)

/-- Embeds the body of `luaPolicing` (part_011): input is the stored hash
(`none` = key absent; fields `level` and `last_leak`), output is the reply
`(allowed, remaining, retry_after)` and the `(level, last_leak)` written
back.  As in the token bucket script, the reply's `remaining` is initialized
to `max(0, ⌊capacity - level⌋)` and only overwritten in the allow branch. -/
def luaPolicing (capacity leakRate : Int) (now cost : ℚ)
    (stored : Option (ℚ × ℚ)) :
    (Int × Int × Int) × (ℚ × ℚ) :=
  let level0 := (stored.map Prod.fst).getD 0
  let lastLeak := (stored.map Prod.snd).getD now
  let elapsed := now - lastLeak
  let leaked := elapsed * (leakRate : ℚ)
  let level := max 0 (level0 - leaked)
  if level + cost ≤ (capacity : ℚ) then
    let level1 := level + cost
    ((1, max 0 ⌊(capacity : ℚ) - level1⌋, 0), (level1, now))
  else
    ((0, max 0 ⌊(capacity : ℚ) - level⌋, ⌈cost / (leakRate : ℚ)⌉), (level, now))

/-- Embeds the body of `luaShaping` (part_011): input is the stored
`next_free` (`none` = key absent), output is the reply `(allowed, remaining,
delay_ms)` and the `next_free` written back.  The delay is returned as
`⌊delay·1000⌋` milliseconds; on denial the reply's `remaining` keeps its
initial `max(0, ⌊capacity - queue_depth⌋)` value and `delay_ms` is 0. -/
def luaShaping (capacity leakRate : Int) (now cost : ℚ)
    (stored : Option ℚ) :
    (Int × Int × Int) × ℚ :=
  let nextFree0 := stored.getD now
  let nextFree := if nextFree0 < now then now else nextFree0
  let delay := nextFree - now
  let queueDepth := delay * (leakRate : ℚ)
  if queueDepth + cost ≤ (capacity : ℚ) then
    let delayMs := ⌊delay * 1000⌋
    let nextFree1 := nextFree + cost / (leakRate : ℚ)
    let queueDepth1 := queueDepth + cost
    ((1, max 0 ⌊(capacity : ℚ) - queueDepth1⌋, delayMs), nextFree1)
  else
    ((0, max 0 ⌊(capacity : ℚ) - queueDepth⌋, 0), nextFree)

/-- Leaky bucket operating mode (`LeakyBucketMode` in part_011). -/
inductive LeakyBucketMode where
  | policing
  | shaping
deriving Repr, DecidableEq

/-- Embeds `leakyBucketRedis.AllowN` (part_011) given the stored script
input: selects the script by mode, runs it, and translates the reply.
`retryAfter` is populated from the reply's third slot only for
policing-denied (`retry_after` seconds) and shaping-allowed (`delay_ms`
milliseconds) decisions. -/
def leakyBucketRedis.AllowN (o : Options) (capacity leakRate : Int)
    (mode : LeakyBucketMode) (key : String)
    (storedPolicing : Option (ℚ × ℚ)) (storedShaping : Option ℚ)
    (now : ℚ) (n : Int) :
    Result × List RCmd :=
  let reply : Int × Int × Int :=
    match mode with
    | LeakyBucketMode.policing => (luaPolicing capacity leakRate now (n : ℚ) storedPolicing).1
    | LeakyBucketMode.shaping => (luaShaping capacity leakRate now (n : ℚ) storedShaping).1
  let allowed : Bool := decide (reply.1 = 1)
  let remaining := reply.2.1
  let retryAfter : ℚ :=
    if mode = LeakyBucketMode.policing ∧ allowed = false then (reply.2.2 : ℚ)
    else if mode = LeakyBucketMode.shaping ∧ allowed = true then (reply.2.2 : ℚ) / 1000
    else 0
  (⟨allowed, remaining, capacity, 0, retryAfter⟩,
    [RCmd.evalScript (match mode with
      | LeakyBucketMode.policing => "luaPolicing"
      | LeakyBucketMode.shaping => "luaShaping")])

-- ── GCRA (src/gcra.go) ───────────────────────────────────────────────────

/-- Constructor-derived constants of a GCRA engine (`NewGCRA` in
src/gcra.go): `emissionInterval = 1/rate`,
`burstAllowance = (burst-1)·emissionInterval`. -/
structure GcraEngine where
  emissionInterval : ℚ
  burstAllowance : ℚ
  burst : Int
deriving Repr, DecidableEq

/-- Embeds the constant computation in `NewGCRA` (src/gcra.go). -/
def GcraEngine.new (rate burst : Int) : GcraEngine :=
  let emissionInterval : ℚ := 1 / (rate : ℚ)
  ⟨emissionInterval, ((burst : ℚ) - 1) * emissionInterval, burst⟩

/-- Embeds `gcraMemory.AllowN` (src/gcra.go) for one key.  `o` is the
receiver's `opts` field, which this method never reads.  The stored TAT is
0 for a fresh key (`gcraState{}`'s zero value).  On allow the state becomes
the new TAT; on denial it is unchanged. -/
def gcraMemory.AllowN (g : GcraEngine) (o : Options) (tat0 : ℚ) (now : ℚ) (n : Int) :
    Result × ℚ :=
  let tat := max tat0 now
  let increment := g.emissionInterval * (n : ℚ)
  let newTAT := tat + increment
  let diff := newTAT - now
  if diff ≤ g.burstAllowance + g.emissionInterval then
    let remaining := ⌊(g.burstAllowance - diff + g.emissionInterval) / g.emissionInterval⌋
    (⟨true, remaining, g.burst, 0, 0⟩, newTAT)
  else
    let retryAfter : ℚ := ((⌈diff - g.burstAllowance⌉ : ℤ) : ℚ)
    (⟨false, 0, g.burst, 0, retryAfter⟩, tat0)

/-- Embeds the body of `gcraScript` (src/gcra.go): input is the stored TAT
(`none` = key absent, parsed as `now`), output is the reply `(allowed,
remaining, retry_after)` and the TAT left in the store (unchanged on
denial). -/
def gcraScript (emissionInterval burstAllowance : ℚ) (now increment : ℚ)
    (stored : Option ℚ) :
    (Int × Int × Int) × Option ℚ :=
  let tat0 := stored.getD now
  let tat := max tat0 now
  let newTAT := tat + increment
  let diff := newTAT - now
  if diff ≤ burstAllowance + emissionInterval then
    let remaining := ⌊(burstAllowance - diff + emissionInterval) / emissionInterval⌋
    ((1, remaining, 0), some newTAT)
  else
    ((0, 0, ⌈diff - burstAllowance⌉), stored)

/-- Embeds `gcraRedis.AllowN` (src/gcra.go) given the stored TAT: runs the
script with `increment = emissionInterval·n` and translates the reply. -/
def gcraRedis.AllowN (g : GcraEngine) (o : Options) (key : String)
    (stored : Option ℚ) (now : ℚ) (n : Int) :
    Result × Option ℚ × List RCmd :=
  let increment := g.emissionInterval * (n : ℚ)
  let run := gcraScript g.emissionInterval g.burstAllowance now increment stored
  let allowed := run.1.1 = 1
  let remaining := run.1.2.1
  let retryAfterSec := run.1.2.2
  (⟨allowed, remaining, g.burst, 0, (retryAfterSec : ℚ)⟩, run.2,
    [RCmd.evalScript "gcraScript"])

-- ── Redis-variant error branches ─────────────────────────────────────────

/-- Embeds the `err != nil` branch of `fixedWindowRedis.AllowN` (part_013):
the synthetic decision returned when the store operation fails, paired with
whether an error is returned to the caller.  `maxReq` is the resolved
effective limit. -/
def fixedWindowRedis.onStoreError (o : Options) (maxReq : Int) : Result × Bool :=
  if o.failOpen then (⟨true, maxReq - 1, maxReq, 0, 0⟩, false)
  else (⟨false, 0, maxReq, 0, 0⟩, true)

/-- Embeds `slidingWindowRedis.failResult` (src/sliding_window.go). -/
def slidingWindowRedis.failResult (o : Options) (maxRequests : Int) : Result × Bool :=
  if o.failOpen then (⟨true, maxRequests - 1, maxRequests, 0, 0⟩, false)
  else (⟨false, 0, maxRequests, 0, 0⟩, true)

/-- Embeds `slidingWindowCounterRedis.failResult` (part_006). -/
def slidingWindowCounterRedis.failResult (o : Options) (maxRequests : Int) :
    Result × Bool :=
  if o.failOpen then (⟨true, maxRequests - 1, maxRequests, 0, 0⟩, false)
  else (⟨false, 0, maxRequests, 0, 0⟩, true)

/-- Embeds the `err != nil` branch of `tokenBucketRedis.AllowN`
(src/token_bucket.go). -/
def tokenBucketRedis.onStoreError (o : Options) (capacity : Int) : Result × Bool :=
  if o.failOpen then (⟨true, capacity - 1, capacity, 0, 0⟩, false)
  else (⟨false, 0, capacity, 0, 0⟩, true)

/-- Embeds the `err != nil` branch of `leakyBucketRedis.AllowN` (part_011). -/
def leakyBucketRedis.onStoreError (o : Options) (capacity : Int) : Result × Bool :=
  if o.failOpen then (⟨true, capacity - 1, capacity, 0, 0⟩, false)
  else (⟨false, 0, capacity, 0, 0⟩, true)

/-- Embeds the `err != nil` branch of `gcraRedis.AllowN` (src/gcra.go). -/
def gcraRedis.onStoreError (o : Options) (burst : Int) : Result × Bool :=
  if o.failOpen then (⟨true, burst - 1, burst, 0, 0⟩, false)
  else (⟨false, 0, burst, 0, 0⟩, true)

-- ── In-process store (src/store/memory/store.go) ─────────────────────────

/-- One value in the in-process store's `data` map (`entry` in
src/store/memory/store.go); `expireAt = none` models the zero time (no
expiry). -/
structure MemEntry where
  value : String
  expireAt : Option ℚ
deriving Repr, DecidableEq

/-- The in-process store's string-keyed data map (`Store.data`), as an
association list; the sorted-set half and the background sweeper are not
needed for the hash claims. -/
structure MemStore where
  data : List (String × MemEntry)
deriving Repr, DecidableEq

/-- Embeds `Store.isExpired`: an entry is expired when it has an expiry
instant that lies strictly in the past. -/
def MemStore.isExpired (now : ℚ) (e : MemEntry) : Bool :=
  match e.expireAt with
  | none => false
  | some t => decide (t < now)

/-- Embeds `Store.HGetAll` (src/store/memory/store.go).  The source looks
the key up and returns an empty map when it is absent or expired — and then
returns an empty map in the present branch as well (its body is
`return map[string]string{}, nil` in both branches). -/
def MemStore.HGetAll (s : MemStore) (now : ℚ) (key : String) :
    List (String × String) :=
  match s.data.lookup key with
  | none => []
  | some e => if MemStore.isExpired now e then [] else []

/-- Embeds `Store.HSet` (src/store/memory/store.go).  The source body
acquires the mutex and returns nil without touching any state, so the store
is returned unchanged. -/
def MemStore.HSet (s : MemStore) (key : String)
    (values : List (String × String)) : MemStore :=
  s

-- ── Spec-side models ─────────────────────────────────────────────────────

/-- Modelled from the spec: the GCRA decision pseudocode of §4.2.7, written
from the spec's own words for the refinement comparison with
`gcraMemory.AllowN` / `gcraScript`.  Returns
`(allowed, remaining, retry_after_seconds, stored_tat_after)`. -/
def gcraSpecStep (rate burst : Int) (storedTat now : ℚ) (n : Int) :
    Bool × Int × ℚ × ℚ :=
  let emissionInterval : ℚ := 1 / (rate : ℚ)
  let burstAllowance : ℚ := ((burst - 1 : Int) : ℚ) * emissionInterval
  let tat := max storedTat now
  let newTat := tat + (n : ℚ) * emissionInterval
  let diff := newTat - now
  if diff ≤ burstAllowance + emissionInterval then
    (true, ⌊(burstAllowance - diff + emissionInterval) / emissionInterval⌋, 0, newTat)
  else
    (false, 0, ((⌈diff - burstAllowance⌉ : ℤ) : ℚ), storedTat)

/-- Modelled from the spec: the token bucket state update of §4.2.4, written
from the spec's own words for the refinement comparison with
`tokenBucketMemory.AllowN` / `tokenBucketScript`.  Returns
`(allowed, remaining, retry_after_seconds, state_after)`. -/
def tokenBucketSpecStep (C R : Int) (tokens0 lastRefill now : ℚ) (n : Int) :
    Bool × Int × ℚ × TokenBucketState :=
  let elapsed := now - lastRefill
  let tokens := min (C : ℚ) (tokens0 + elapsed * (R : ℚ))
  if tokens ≥ (n : ℚ) then
    (true, ⌊tokens - (n : ℚ)⌋, 0, ⟨tokens - (n : ℚ), now⟩)
  else
    (false, 0, ((⌈((n : ℚ) - tokens) / (R : ℚ)⌉ : ℤ) : ℚ), ⟨tokens, now⟩)

/-- The spec's decision-record invariant "¬allowed ⇒ remaining = 0". -/
def denyZeroRemaining (r : Result) : Prop := r.allowed = false → r.remaining = 0

/-- The spec's decision-record invariant "remaining ≤ limit". -/
def remainingLeLimit (r : Result) : Prop := r.remaining ≤ r.limit

/-- The spec's decision-record invariant "allowed ⇒ retry_after = 0". -/
def allowedNoRetry (r : Result) : Prop := r.allowed = true → r.retryAfter = 0

-- ── Helper lemmas ────────────────────────────────────────────────────────

/-- The rollover loop exits with the current instant strictly inside the
window. -/
theorem swcRollover_windowStart_lt (W now : ℚ) (hW : 0 < W) (st : SwcState) :
    now - (swcRollover W now st).windowStart < W := by
  induction st using swcRollover.induct W now with
  | case1 st h ih => rw [swcRollover, dif_pos h]; exact ih
  | case2 st h =>
    rw [swcRollover, dif_neg h]
    push_neg at h
    exact h hW

/-- The rollover loop preserves nonnegativity of both counters. -/
theorem swcRollover_counts_nonneg (W now : ℚ) (st : SwcState)
    (hp : 0 ≤ st.previousCount) (hc : 0 ≤ st.currentCount) :
    0 ≤ (swcRollover W now st).previousCount ∧
    0 ≤ (swcRollover W now st).currentCount := by
  induction st using swcRollover.induct W now with
  | case1 st h ih => rw [swcRollover, dif_pos h]; exact ih hc le_rfl
  | case2 st h => rw [swcRollover, dif_neg h]; exact ⟨hp, hc⟩

/-- The resolved limit is positive whenever the construction-time default
is. -/
theorem resolveLimit_pos (o : Options) (key : String) (d : Int) (hd : 1 ≤ d) :
    1 ≤ o.resolveLimit key d := by
  unfold Options.resolveLimit
  match o.limitFn with
  | some f =>
    simp only
    split_ifs with h
    · omega
    · exact hd
  | none => exact hd

theorem fixedWindowMemory_result_inv (o : Options) (maxRequests windowSeconds : Int)
    (key : String) (st : Option FixedWindowState) (now : ℚ) (n : Int)
    (hreq : 0 ≤ (st.getD ⟨0, now⟩).requests) (hn : 1 ≤ n) (hmax : 1 ≤ maxRequests) :
    denyZeroRemaining (fixedWindowMemory.AllowN o maxRequests windowSeconds key st now n).1 ∧
    remainingLeLimit (fixedWindowMemory.AllowN o maxRequests windowSeconds key st now n).1 ∧
    allowedNoRetry (fixedWindowMemory.AllowN o maxRequests windowSeconds key st now n).1 := by
  have hres := resolveLimit_pos o key maxRequests hmax
  simp only [fixedWindowMemory.AllowN, denyZeroRemaining, remainingLeLimit, allowedNoRetry]
  split_ifs with h1 h2 <;> simp_all <;> omega

theorem fixedWindowRedis_result_inv (o : Options) (maxRequests windowSeconds : Int)
    (key : String) (stored : Option Int) (ttl0 : Int) (now : ℚ) (n : Int)
    (hcnt : 0 ≤ stored.getD 0) (hn : 1 ≤ n) (hmax : 1 ≤ maxRequests) :
    denyZeroRemaining (fixedWindowRedis.AllowN o maxRequests windowSeconds key stored ttl0 now n).1 ∧
    remainingLeLimit (fixedWindowRedis.AllowN o maxRequests windowSeconds key stored ttl0 now n).1 ∧
    allowedNoRetry (fixedWindowRedis.AllowN o maxRequests windowSeconds key stored ttl0 now n).1 := by
  have hres := resolveLimit_pos o key maxRequests hmax
  simp only [fixedWindowRedis.AllowN, fixedWindowScript, denyZeroRemaining,
    remainingLeLimit, allowedNoRetry]
  split_ifs <;> simp_all <;> omega

theorem slidingWindowMemory_result_inv (o : Options) (maxRequests windowSeconds : Int)
    (ts : List ℚ) (now : ℚ) (n : Int) (hn : 1 ≤ n) (hmax : 1 ≤ maxRequests) :
    denyZeroRemaining (slidingWindowMemory.AllowN o maxRequests windowSeconds ts now n).1 ∧
    remainingLeLimit (slidingWindowMemory.AllowN o maxRequests windowSeconds ts now n).1 ∧
    allowedNoRetry (slidingWindowMemory.AllowN o maxRequests windowSeconds ts now n).1 := by
  simp only [slidingWindowMemory.AllowN, denyZeroRemaining, remainingLeLimit, allowedNoRetry]
  split_ifs <;> simp_all <;> omega

theorem slidingWindowRedis_result_inv (o : Options) (maxRequests windowSeconds : Int)
    (key : String) (scores : List Int) (now : Int) (n : Int)
    (hn : 1 ≤ n) (hmax : 1 ≤ maxRequests) :
    denyZeroRemaining (slidingWindowRedis.AllowN o maxRequests windowSeconds key scores now n).1 ∧
    remainingLeLimit (slidingWindowRedis.AllowN o maxRequests windowSeconds key scores now n).1 ∧
    allowedNoRetry (slidingWindowRedis.AllowN o maxRequests windowSeconds key scores now n).1 := by
  simp only [slidingWindowRedis.AllowN, denyZeroRemaining, remainingLeLimit, allowedNoRetry]
  split_ifs <;> simp_all <;> omega

theorem slidingWindowCounterMemory_result_inv (o : Options)
    (maxRequests windowSeconds : Int) (st : Option SwcState) (now : ℚ) (n : Int)
    (hn : 1 ≤ n) (hmax : 1 ≤ maxRequests) (hws : 1 ≤ windowSeconds)
    (hp : 0 ≤ (st.getD ⟨now, 0, 0⟩).previousCount)
    (hc : 0 ≤ (st.getD ⟨now, 0, 0⟩).currentCount) :
    denyZeroRemaining (slidingWindowCounterMemory.AllowN o maxRequests windowSeconds st now n).1 ∧
    remainingLeLimit (slidingWindowCounterMemory.AllowN o maxRequests windowSeconds st now n).1 ∧
    allowedNoRetry (slidingWindowCounterMemory.AllowN o maxRequests windowSeconds st now n).1 := by
  have hW : (0 : ℚ) < ((windowSeconds : Int) : ℚ) := by
    have : (0 : Int) < windowSeconds := by omega
    exact_mod_cast this
  obtain ⟨hp1, hc1⟩ := swcRollover_counts_nonneg ((windowSeconds : Int) : ℚ) now
    (st.getD ⟨now, 0, 0⟩) hp hc
  have hlt := swcRollover_windowStart_lt ((windowSeconds : Int) : ℚ) now hW
    (st.getD ⟨now, 0, 0⟩)
  simp only [slidingWindowCounterMemory.AllowN, denyZeroRemaining, remainingLeLimit,
    allowedNoRetry]
  set st1 := swcRollover ((windowSeconds : Int) : ℚ) now (st.getD ⟨now, 0, 0⟩) with hst1
  have hef : (now - st1.windowStart) / ((windowSeconds : Int) : ℚ) < 1 :=
    (div_lt_one hW).mpr hlt
  have hpw : 0 ≤ (st1.previousCount : ℚ) *
      (1 - (now - st1.windowStart) / ((windowSeconds : Int) : ℚ)) :=
    mul_nonneg (by exact_mod_cast hp1) (by linarith)
  split_ifs with hallow
  · refine ⟨by simp, ?_, by simp⟩
    simp only
    have hest : (0 : ℚ) ≤ (st1.previousCount : ℚ) *
        (1 - (now - st1.windowStart) / ((windowSeconds : Int) : ℚ))
        + ((st1.currentCount + n : Int) : ℚ) := by
      have : (0 : ℚ) ≤ ((st1.currentCount + n : Int) : ℚ) := by exact_mod_cast by omega
      linarith
    have hfl : ⌊(maxRequests : ℚ) - ((st1.previousCount : ℚ) *
        (1 - (now - st1.windowStart) / ((windowSeconds : Int) : ℚ))
        + ((st1.currentCount + n : Int) : ℚ))⌋ ≤ maxRequests := by
      calc ⌊(maxRequests : ℚ) - _⌋ ≤ ⌊(maxRequests : ℚ)⌋ :=
            Int.floor_le_floor (by linarith)
        _ = maxRequests := Int.floor_intCast maxRequests
    exact max_le (by omega) hfl
  · exact ⟨fun _ => rfl, by simp; omega, by simp⟩

theorem slidingWindowCounterRedis_result_inv (o : Options)
    (maxRequests windowSeconds : Int) (key : String)
    (prevStored currStored : Option Int) (now : Int) (n : Int)
    (hn : 1 ≤ n) (hmax : 1 ≤ maxRequests) (hws : 1 ≤ windowSeconds)
    (hp : 0 ≤ prevStored.getD 0) (hc : 0 ≤ currStored.getD 0) :
    denyZeroRemaining (slidingWindowCounterRedis.AllowN o maxRequests windowSeconds
      key prevStored currStored now n).1 ∧
    remainingLeLimit (slidingWindowCounterRedis.AllowN o maxRequests windowSeconds
      key prevStored currStored now n).1 ∧
    allowedNoRetry (slidingWindowCounterRedis.AllowN o maxRequests windowSeconds
      key prevStored currStored now n).1 := by
  have hWpos : (0 : Int) < windowSeconds := by omega
  have hmod0 : (0 : Int) ≤ now % windowSeconds := Int.emod_nonneg now (by omega)
  have hmodlt : now % windowSeconds < windowSeconds := Int.emod_lt_of_pos now hWpos
  have hW : (0 : ℚ) < ((windowSeconds : Int) : ℚ) := by exact_mod_cast hWpos
  have hel1 : ((now % windowSeconds : Int) : ℚ) / ((windowSeconds : Int) : ℚ) < 1 :=
    (div_lt_one hW).mpr (by exact_mod_cast hmodlt)
  have hpw : 0 ≤ ((prevStored.getD 0 : Int) : ℚ) *
      (1 - ((now % windowSeconds : Int) : ℚ) / ((windowSeconds : Int) : ℚ)) :=
    mul_nonneg (by exact_mod_cast hp) (by linarith)
  have hfl : ⌊(maxRequests : ℚ) - (((prevStored.getD 0 : Int) : ℚ) *
      (1 - ((now % windowSeconds : Int) : ℚ) / ((windowSeconds : Int) : ℚ))
      + ((currStored.getD 0 + n : Int) : ℚ))⌋ ≤ maxRequests := by
    have hcn : (0 : ℚ) ≤ ((currStored.getD 0 + n : Int) : ℚ) := by exact_mod_cast by omega
    calc ⌊(maxRequests : ℚ) - _⌋ ≤ ⌊(maxRequests : ℚ)⌋ :=
          Int.floor_le_floor (by linarith)
      _ = maxRequests := Int.floor_intCast maxRequests
  simp only [slidingWindowCounterRedis.AllowN, denyZeroRemaining, remainingLeLimit,
    allowedNoRetry]
  split_ifs <;> dsimp only <;> refine ⟨?_, ?_, ?_⟩ <;>
    first
      | omega
      | exact max_le (by omega) hfl
      | (simp; done)
      | (simp; omega)

theorem tokenBucketMemory_result_inv (o : Options) (capacity refillRate : Int)
    (st : Option TokenBucketState) (now : ℚ) (n : Int)
    (hn : 1 ≤ n) (hcap : 1 ≤ capacity) :
    denyZeroRemaining (tokenBucketMemory.AllowN o capacity refillRate st now n).1 ∧
    remainingLeLimit (tokenBucketMemory.AllowN o capacity refillRate st now n).1 ∧
    allowedNoRetry (tokenBucketMemory.AllowN o capacity refillRate st now n).1 := by
  have hn' : (0 : ℚ) ≤ ((n : Int) : ℚ) := by exact_mod_cast by omega
  simp only [tokenBucketMemory.AllowN, denyZeroRemaining, remainingLeLimit, allowedNoRetry]
  set s0 := st.getD (⟨(capacity : ℚ), now⟩ : TokenBucketState) with hs0
  set tk := min ((capacity : Int) : ℚ)
    (s0.tokens + (now - s0.lastRefill) * ((refillRate : Int) : ℚ)) with htk
  have hmin : tk ≤ ((capacity : Int) : ℚ) := min_le_left _ _
  have hfl : ⌊tk - ((n : Int) : ℚ)⌋ ≤ capacity := by
    calc ⌊tk - ((n : Int) : ℚ)⌋ ≤ ⌊((capacity : Int) : ℚ)⌋ := Int.floor_le_floor (by linarith)
      _ = capacity := Int.floor_intCast capacity
  split_ifs <;> dsimp only <;> refine ⟨?_, ?_, ?_⟩ <;>
    first
      | omega
      | exact hfl
      | (simp; done)

theorem tokenBucketRedis_result_inv (o : Options) (capacity refillRate : Int)
    (key : String) (st : Option TokenBucketState) (now : ℚ) (n : Int)
    (hn : 1 ≤ n) (hcap : 1 ≤ capacity) :
    remainingLeLimit (tokenBucketRedis.AllowN o capacity refillRate key st now n).1 ∧
    allowedNoRetry (tokenBucketRedis.AllowN o capacity refillRate key st now n).1 := by
  have hn' : (0 : ℚ) ≤ ((n : Int) : ℚ) := by exact_mod_cast by omega
  simp only [tokenBucketRedis.AllowN, tokenBucketScript, remainingLeLimit, allowedNoRetry]
  set s0 := st.getD (⟨(capacity : ℚ), now⟩ : TokenBucketState) with hs0
  set tk := min ((capacity : Int) : ℚ)
    (s0.tokens + (now - s0.lastRefill) * ((refillRate : Int) : ℚ)) with htk
  have hmin : tk ≤ ((capacity : Int) : ℚ) := min_le_left _ _
  have hflC : ⌊tk⌋ ≤ capacity := by
    calc ⌊tk⌋ ≤ ⌊((capacity : Int) : ℚ)⌋ := Int.floor_le_floor hmin
      _ = capacity := Int.floor_intCast capacity
  have hfl : ⌊tk - ((n : Int) : ℚ)⌋ ≤ capacity := by
    calc ⌊tk - ((n : Int) : ℚ)⌋ ≤ ⌊((capacity : Int) : ℚ)⌋ := Int.floor_le_floor (by linarith)
      _ = capacity := Int.floor_intCast capacity
  split_ifs <;> dsimp only <;> refine ⟨?_, ?_⟩ <;>
    first
      | exact hfl
      | exact hflC
      | (simp; done)

theorem leakyBucketMemory_policing_result_inv (o : Options) (capacity leakRate : Int)
    (st : Option LeakyBucketState) (now : ℚ) (n : Int)
    (hn : 1 ≤ n) (hcap : 1 ≤ capacity) :
    denyZeroRemaining (leakyBucketMemory.allowPolicing o capacity leakRate st now n).1 ∧
    remainingLeLimit (leakyBucketMemory.allowPolicing o capacity leakRate st now n).1 ∧
    allowedNoRetry (leakyBucketMemory.allowPolicing o capacity leakRate st now n).1 := by
  have hn' : (0 : ℚ) ≤ ((n : Int) : ℚ) := by exact_mod_cast by omega
  simp only [leakyBucketMemory.allowPolicing, denyZeroRemaining, remainingLeLimit,
    allowedNoRetry]
  set s0 := st.getD (⟨0, now, now⟩ : LeakyBucketState) with hs0
  set lv := max 0 (s0.level - (now - s0.lastLeak) * ((leakRate : Int) : ℚ)) with hlv
  have hlv0 : 0 ≤ lv := le_max_left _ _
  have hfl : max 0 ⌊((capacity : Int) : ℚ) - (lv + ((n : Int) : ℚ))⌋ ≤ capacity := by
    refine max_le (by omega) ?_
    calc ⌊((capacity : Int) : ℚ) - (lv + ((n : Int) : ℚ))⌋ ≤ ⌊((capacity : Int) : ℚ)⌋ :=
          Int.floor_le_floor (by linarith)
      _ = capacity := Int.floor_intCast capacity
  split_ifs <;> dsimp only <;> refine ⟨?_, ?_, ?_⟩ <;>
    first
      | omega
      | exact hfl
      | (simp; done)

theorem leakyBucketMemory_shaping_result_inv (o : Options) (capacity leakRate : Int)
    (st : Option LeakyBucketState) (now : ℚ) (n : Int)
    (hn : 1 ≤ n) (hcap : 1 ≤ capacity) (hlr : 1 ≤ leakRate) :
    denyZeroRemaining (leakyBucketMemory.allowShaping o capacity leakRate st now n).1 ∧
    remainingLeLimit (leakyBucketMemory.allowShaping o capacity leakRate st now n).1 := by
  have hn' : (0 : ℚ) ≤ ((n : Int) : ℚ) := by exact_mod_cast by omega
  have hlr' : (0 : ℚ) ≤ ((leakRate : Int) : ℚ) := by exact_mod_cast by omega
  simp only [leakyBucketMemory.allowShaping, denyZeroRemaining, remainingLeLimit]
  set s0 := st.getD (⟨0, now, now⟩ : LeakyBucketState) with hs0
  set nf := if s0.nextFree < now then now else s0.nextFree with hnf
  have hnow : now ≤ nf := by
    rw [hnf]; split_ifs with h
    · exact le_refl now
    · exact le_of_not_lt h
  have hqd : 0 ≤ (nf - now) * ((leakRate : Int) : ℚ) :=
    mul_nonneg (by linarith) hlr'
  have hfl : max 0 ⌊((capacity : Int) : ℚ)
      - ((nf - now) * ((leakRate : Int) : ℚ) + ((n : Int) : ℚ))⌋ ≤ capacity := by
    refine max_le (by omega) ?_
    calc ⌊((capacity : Int) : ℚ) - ((nf - now) * ((leakRate : Int) : ℚ) + ((n : Int) : ℚ))⌋
        ≤ ⌊((capacity : Int) : ℚ)⌋ := Int.floor_le_floor (by linarith)
      _ = capacity := Int.floor_intCast capacity
  split_ifs <;> dsimp only <;> refine ⟨?_, ?_⟩ <;>
    first
      | omega
      | exact hfl
      | (simp; done)

theorem leakyBucketRedis_policing_result_inv (o : Options) (capacity leakRate : Int)
    (key : String) (storedPolicing : Option (ℚ × ℚ)) (storedShaping : Option ℚ)
    (now : ℚ) (n : Int) (hn : 1 ≤ n) (hcap : 1 ≤ capacity) :
    remainingLeLimit (leakyBucketRedis.AllowN o capacity leakRate
      LeakyBucketMode.policing key storedPolicing storedShaping now n).1 ∧
    allowedNoRetry (leakyBucketRedis.AllowN o capacity leakRate
      LeakyBucketMode.policing key storedPolicing storedShaping now n).1 := by
  have hn' : (0 : ℚ) ≤ ((n : Int) : ℚ) := by exact_mod_cast by omega
  simp only [leakyBucketRedis.AllowN, luaPolicing, remainingLeLimit, allowedNoRetry]
  set lv0 := (storedPolicing.map Prod.fst).getD 0 with hlv0
  set ll := (storedPolicing.map Prod.snd).getD now with hll
  set lv := max 0 (lv0 - (now - ll) * ((leakRate : Int) : ℚ)) with hlv
  have hlvn : 0 ≤ lv := le_max_left _ _
  have hflA : max 0 ⌊((capacity : Int) : ℚ) - (lv + ((n : Int) : ℚ))⌋ ≤ capacity := by
    refine max_le (by omega) ?_
    calc ⌊((capacity : Int) : ℚ) - (lv + ((n : Int) : ℚ))⌋ ≤ ⌊((capacity : Int) : ℚ)⌋ :=
          Int.floor_le_floor (by linarith)
      _ = capacity := Int.floor_intCast capacity
  have hflD : max 0 ⌊((capacity : Int) : ℚ) - lv⌋ ≤ capacity := by
    refine max_le (by omega) ?_
    calc ⌊((capacity : Int) : ℚ) - lv⌋ ≤ ⌊((capacity : Int) : ℚ)⌋ :=
          Int.floor_le_floor (by linarith)
      _ = capacity := Int.floor_intCast capacity
  split_ifs <;> dsimp only <;> refine ⟨?_, ?_⟩ <;>
    first
      | exact hflA
      | exact hflD
      | (simp; done)

theorem leakyBucketRedis_shaping_remaining_le (o : Options) (capacity leakRate : Int)
    (key : String) (storedPolicing : Option (ℚ × ℚ)) (storedShaping : Option ℚ)
    (now : ℚ) (n : Int) (hn : 1 ≤ n) (hcap : 1 ≤ capacity) (hlr : 1 ≤ leakRate) :
    remainingLeLimit (leakyBucketRedis.AllowN o capacity leakRate
      LeakyBucketMode.shaping key storedPolicing storedShaping now n).1 := by
  have hn' : (0 : ℚ) ≤ ((n : Int) : ℚ) := by exact_mod_cast by omega
  have hlr' : (0 : ℚ) ≤ ((leakRate : Int) : ℚ) := by exact_mod_cast by omega
  simp only [leakyBucketRedis.AllowN, luaShaping, remainingLeLimit]
  set nf0 := storedShaping.getD now with hnf0
  set nf := if nf0 < now then now else nf0 with hnf
  have hnow : now ≤ nf := by
    rw [hnf]; split_ifs with h
    · exact le_refl now
    · exact le_of_not_lt h
  have hqd : 0 ≤ (nf - now) * ((leakRate : Int) : ℚ) :=
    mul_nonneg (by linarith) hlr'
  have hflA : max 0 ⌊((capacity : Int) : ℚ)
      - ((nf - now) * ((leakRate : Int) : ℚ) + ((n : Int) : ℚ))⌋ ≤ capacity := by
    refine max_le (by omega) ?_
    calc ⌊((capacity : Int) : ℚ) - ((nf - now) * ((leakRate : Int) : ℚ) + ((n : Int) : ℚ))⌋
        ≤ ⌊((capacity : Int) : ℚ)⌋ := Int.floor_le_floor (by linarith)
      _ = capacity := Int.floor_intCast capacity
  have hflD : max 0 ⌊((capacity : Int) : ℚ) - (nf - now) * ((leakRate : Int) : ℚ)⌋
      ≤ capacity := by
    refine max_le (by omega) ?_
    calc ⌊((capacity : Int) : ℚ) - (nf - now) * ((leakRate : Int) : ℚ)⌋
        ≤ ⌊((capacity : Int) : ℚ)⌋ := Int.floor_le_floor (by linarith)
      _ = capacity := Int.floor_intCast capacity
  split_ifs <;> dsimp only <;>
    first
      | exact hflA
      | exact hflD
      | (simp; done)

theorem gcraMemory_result_inv (rate burst : Int) (o : Options) (tat0 now : ℚ) (n : Int)
    (hn : 1 ≤ n) (hrate : 1 ≤ rate) (hburst : 1 ≤ burst) :
    denyZeroRemaining (gcraMemory.AllowN (GcraEngine.new rate burst) o tat0 now n).1 ∧
    remainingLeLimit (gcraMemory.AllowN (GcraEngine.new rate burst) o tat0 now n).1 ∧
    allowedNoRetry (gcraMemory.AllowN (GcraEngine.new rate burst) o tat0 now n).1 := by
  have hrq : (0 : ℚ) < ((rate : Int) : ℚ) := by exact_mod_cast by omega
  have hEI : (0 : ℚ) < 1 / ((rate : Int) : ℚ) := by positivity
  have hn' : (1 : ℚ) ≤ ((n : Int) : ℚ) := by exact_mod_cast hn
  simp only [gcraMemory.AllowN, GcraEngine.new, denyZeroRemaining, remainingLeLimit,
    allowedNoRetry]
  set EI := 1 / ((rate : Int) : ℚ) with hEIdef
  set diff := max tat0 now + EI * ((n : Int) : ℚ) - now with hdiffdef
  have hdiff : EI ≤ diff := by
    have h1 : now ≤ max tat0 now := le_max_right _ _
    have h2 : EI * 1 ≤ EI * ((n : Int) : ℚ) :=
      mul_le_mul_of_nonneg_left hn' (le_of_lt hEI)
    rw [hdiffdef]
    nlinarith
  have hq : ((((burst : Int) : ℚ) - 1) * EI - diff + EI) / EI ≤ ((burst : Int) : ℚ) - 1 := by
    have hnum : (((burst : Int) : ℚ) - 1) * EI - diff + EI ≤ (((burst : Int) : ℚ) - 1) * EI := by
      linarith
    have hcancel : ((((burst : Int) : ℚ) - 1) * EI) / EI = ((burst : Int) : ℚ) - 1 :=
      mul_div_cancel_right₀ _ (ne_of_gt hEI)
    calc ((((burst : Int) : ℚ) - 1) * EI - diff + EI) / EI
        ≤ ((((burst : Int) : ℚ) - 1) * EI) / EI := (div_le_div_iff_of_pos_right hEI).mpr hnum
      _ = ((burst : Int) : ℚ) - 1 := hcancel
  have hfloor : ⌊((((burst : Int) : ℚ) - 1) * EI - diff + EI) / EI⌋ ≤ burst - 1 := by
    have hcast : (((burst : Int) : ℚ) - 1) = (((burst - 1 : Int)) : ℚ) := by push_cast; ring
    calc ⌊((((burst : Int) : ℚ) - 1) * EI - diff + EI) / EI⌋
        ≤ ⌊((burst : Int) : ℚ) - 1⌋ := Int.floor_le_floor hq
      _ = burst - 1 := by rw [hcast]; exact Int.floor_intCast _
  split_ifs <;> dsimp only <;> refine ⟨?_, ?_, ?_⟩ <;>
    first
      | omega
      | exact le_trans hfloor (by omega)
      | (simp; done)

theorem gcraRedis_result_inv (rate burst : Int) (o : Options) (key : String)
    (stored : Option ℚ) (now : ℚ) (n : Int)
    (hn : 1 ≤ n) (hrate : 1 ≤ rate) (hburst : 1 ≤ burst) :
    denyZeroRemaining (gcraRedis.AllowN (GcraEngine.new rate burst) o key stored now n).1 ∧
    remainingLeLimit (gcraRedis.AllowN (GcraEngine.new rate burst) o key stored now n).1 ∧
    allowedNoRetry (gcraRedis.AllowN (GcraEngine.new rate burst) o key stored now n).1 := by
  have hrq : (0 : ℚ) < ((rate : Int) : ℚ) := by exact_mod_cast by omega
  have hEI : (0 : ℚ) < 1 / ((rate : Int) : ℚ) := by positivity
  have hn' : (1 : ℚ) ≤ ((n : Int) : ℚ) := by exact_mod_cast hn
  simp only [gcraRedis.AllowN, gcraScript, GcraEngine.new, denyZeroRemaining,
    remainingLeLimit, allowedNoRetry]
  set EI := 1 / ((rate : Int) : ℚ) with hEIdef
  set diff := max (stored.getD now) now + EI * ((n : Int) : ℚ) - now with hdiffdef
  have hdiff : EI ≤ diff := by
    have h1 : now ≤ max (stored.getD now) now := le_max_right _ _
    have h2 : EI * 1 ≤ EI * ((n : Int) : ℚ) :=
      mul_le_mul_of_nonneg_left hn' (le_of_lt hEI)
    rw [hdiffdef]
    nlinarith
  have hq : ((((burst : Int) : ℚ) - 1) * EI - diff + EI) / EI ≤ ((burst : Int) : ℚ) - 1 := by
    have hnum : (((burst : Int) : ℚ) - 1) * EI - diff + EI ≤ (((burst : Int) : ℚ) - 1) * EI := by
      linarith
    have hcancel : ((((burst : Int) : ℚ) - 1) * EI) / EI = ((burst : Int) : ℚ) - 1 :=
      mul_div_cancel_right₀ _ (ne_of_gt hEI)
    calc ((((burst : Int) : ℚ) - 1) * EI - diff + EI) / EI
        ≤ ((((burst : Int) : ℚ) - 1) * EI) / EI := (div_le_div_iff_of_pos_right hEI).mpr hnum
      _ = ((burst : Int) : ℚ) - 1 := hcancel
  have hfloor : ⌊((((burst : Int) : ℚ) - 1) * EI - diff + EI) / EI⌋ ≤ burst - 1 := by
    have hcast : (((burst : Int) : ℚ) - 1) = (((burst - 1 : Int)) : ℚ) := by push_cast; ring
    calc ⌊((((burst : Int) : ℚ) - 1) * EI - diff + EI) / EI⌋
        ≤ ⌊((burst : Int) : ℚ) - 1⌋ := Int.floor_le_floor hq
      _ = burst - 1 := by rw [hcast]; exact Int.floor_intCast _
  split_ifs <;> dsimp only <;> refine ⟨?_, ?_, ?_⟩ <;>
    first
      | omega
      | exact le_trans hfloor (by omega)
      | (simp; done)

theorem fixedWindowMemory_allowed_no_retry (o : Options) (maxRequests windowSeconds : Int)
    (key : String) (st : Option FixedWindowState) (now : ℚ) (n : Int) :
    allowedNoRetry (fixedWindowMemory.AllowN o maxRequests windowSeconds key st now n).1 := by
  simp only [fixedWindowMemory.AllowN, allowedNoRetry]
  split_ifs <;> simp

theorem fixedWindowRedis_allowed_no_retry (o : Options) (maxRequests windowSeconds : Int)
    (key : String) (stored : Option Int) (ttl0 : Int) (now : ℚ) (n : Int) :
    allowedNoRetry (fixedWindowRedis.AllowN o maxRequests windowSeconds key stored ttl0 now n).1 := by
  simp only [fixedWindowRedis.AllowN, fixedWindowScript, allowedNoRetry]
  split_ifs <;> simp

theorem slidingWindowMemory_allowed_no_retry (o : Options) (maxRequests windowSeconds : Int)
    (ts : List ℚ) (now : ℚ) (n : Int) :
    allowedNoRetry (slidingWindowMemory.AllowN o maxRequests windowSeconds ts now n).1 := by
  simp only [slidingWindowMemory.AllowN, allowedNoRetry]
  split_ifs <;> simp

theorem slidingWindowRedis_allowed_no_retry (o : Options) (maxRequests windowSeconds : Int)
    (key : String) (scores : List Int) (now : Int) (n : Int) :
    allowedNoRetry (slidingWindowRedis.AllowN o maxRequests windowSeconds key scores now n).1 := by
  simp only [slidingWindowRedis.AllowN, allowedNoRetry]
  split_ifs <;> simp

theorem slidingWindowCounterMemory_allowed_no_retry (o : Options)
    (maxRequests windowSeconds : Int) (st : Option SwcState) (now : ℚ) (n : Int) :
    allowedNoRetry (slidingWindowCounterMemory.AllowN o maxRequests windowSeconds st now n).1 := by
  simp only [slidingWindowCounterMemory.AllowN, allowedNoRetry]
  split_ifs <;> simp

theorem slidingWindowCounterRedis_allowed_no_retry (o : Options)
    (maxRequests windowSeconds : Int) (key : String)
    (prevStored currStored : Option Int) (now : Int) (n : Int) :
    allowedNoRetry (slidingWindowCounterRedis.AllowN o maxRequests windowSeconds
      key prevStored currStored now n).1 := by
  simp only [slidingWindowCounterRedis.AllowN, allowedNoRetry]
  split_ifs <;> simp

theorem tokenBucketMemory_allowed_no_retry (o : Options) (capacity refillRate : Int)
    (st : Option TokenBucketState) (now : ℚ) (n : Int) :
    allowedNoRetry (tokenBucketMemory.AllowN o capacity refillRate st now n).1 := by
  simp only [tokenBucketMemory.AllowN, allowedNoRetry]
  split_ifs <;> simp

theorem tokenBucketRedis_allowed_no_retry (o : Options) (capacity refillRate : Int)
    (key : String) (st : Option TokenBucketState) (now : ℚ) (n : Int) :
    allowedNoRetry (tokenBucketRedis.AllowN o capacity refillRate key st now n).1 := by
  simp only [tokenBucketRedis.AllowN, tokenBucketScript, allowedNoRetry]
  split_ifs <;> simp

theorem leakyBucketMemory_policing_allowed_no_retry (o : Options) (capacity leakRate : Int)
    (st : Option LeakyBucketState) (now : ℚ) (n : Int) :
    allowedNoRetry (leakyBucketMemory.allowPolicing o capacity leakRate st now n).1 := by
  simp only [leakyBucketMemory.allowPolicing, allowedNoRetry]
  split_ifs <;> simp

theorem leakyBucketRedis_policing_allowed_no_retry (o : Options) (capacity leakRate : Int)
    (key : String) (storedPolicing : Option (ℚ × ℚ)) (storedShaping : Option ℚ)
    (now : ℚ) (n : Int) :
    allowedNoRetry (leakyBucketRedis.AllowN o capacity leakRate
      LeakyBucketMode.policing key storedPolicing storedShaping now n).1 := by
  simp only [leakyBucketRedis.AllowN, luaPolicing, allowedNoRetry]
  split_ifs <;> simp_all

theorem gcraMemory_allowed_no_retry (g : GcraEngine) (o : Options) (tat0 now : ℚ) (n : Int) :
    allowedNoRetry (gcraMemory.AllowN g o tat0 now n).1 := by
  simp only [gcraMemory.AllowN, allowedNoRetry]
  split_ifs <;> simp

theorem gcraRedis_allowed_no_retry (g : GcraEngine) (o : Options) (key : String)
    (stored : Option ℚ) (now : ℚ) (n : Int) :
    allowedNoRetry (gcraRedis.AllowN g o key stored now n).1 := by
  simp only [gcraRedis.AllowN, gcraScript, allowedNoRetry]
  split_ifs <;> simp

theorem shaping_char (o : Options) (capacity leakRate : Int)
    (st : Option LeakyBucketState) (now : ℚ) (n : Int) :
    (((if (st.getD ⟨0, now, now⟩).nextFree < now then now
        else (st.getD ⟨0, now, now⟩).nextFree) - now) * ((leakRate : Int) : ℚ)
        + ((n : Int) : ℚ) ≤ ((capacity : Int) : ℚ) →
      (leakyBucketMemory.allowShaping o capacity leakRate st now n).1.allowed = true ∧
      (leakyBucketMemory.allowShaping o capacity leakRate st now n).1.retryAfter
        = (if (st.getD ⟨0, now, now⟩).nextFree < now then now
            else (st.getD ⟨0, now, now⟩).nextFree) - now ∧
      0 ≤ (leakyBucketMemory.allowShaping o capacity leakRate st now n).1.retryAfter ∧
      (leakyBucketMemory.allowShaping o capacity leakRate st now n).2.nextFree
        = (if (st.getD ⟨0, now, now⟩).nextFree < now then now
            else (st.getD ⟨0, now, now⟩).nextFree) + ((n : Int) : ℚ) / ((leakRate : Int) : ℚ)) ∧
    (¬ (((if (st.getD ⟨0, now, now⟩).nextFree < now then now
        else (st.getD ⟨0, now, now⟩).nextFree) - now) * ((leakRate : Int) : ℚ)
        + ((n : Int) : ℚ) ≤ ((capacity : Int) : ℚ)) →
      (leakyBucketMemory.allowShaping o capacity leakRate st now n).1.allowed = false ∧
      (leakyBucketMemory.allowShaping o capacity leakRate st now n).1.retryAfter = 0) := by
  have hnow : now ≤ (if (st.getD ⟨0, now, now⟩).nextFree < now then now
      else (st.getD ⟨0, now, now⟩).nextFree) := by
    split_ifs with h
    · exact le_refl now
    · exact le_of_not_lt h
  constructor
  · intro h
    simp only [leakyBucketMemory.allowShaping]
    rw [if_pos h]
    exact ⟨rfl, rfl, by linarith, rfl⟩
  · intro h
    simp only [leakyBucketMemory.allowShaping]
    rw [if_neg h]
    exact ⟨rfl, rfl⟩

theorem shaping_redis_char (o : Options) (capacity leakRate : Int) (key : String)
    (storedPolicing : Option (ℚ × ℚ)) (storedShaping : Option ℚ) (now : ℚ) (n : Int) :
    ((leakyBucketRedis.AllowN o capacity leakRate LeakyBucketMode.shaping key
        storedPolicing storedShaping now n).1.allowed = true →
      (leakyBucketRedis.AllowN o capacity leakRate LeakyBucketMode.shaping key
        storedPolicing storedShaping now n).1.retryAfter
        = ((⌊((if storedShaping.getD now < now then now else storedShaping.getD now) - now)
            * 1000⌋ : Int) : ℚ) / 1000) ∧
    ((leakyBucketRedis.AllowN o capacity leakRate LeakyBucketMode.shaping key
        storedPolicing storedShaping now n).1.allowed = false →
      (leakyBucketRedis.AllowN o capacity leakRate LeakyBucketMode.shaping key
        storedPolicing storedShaping now n).1.retryAfter = 0) := by
  simp only [leakyBucketRedis.AllowN, luaShaping]
  split_ifs <;> simp_all

theorem shaping_positive_delay_example :
    (leakyBucketMemory.allowShaping defaultOptions 10 1 (some ⟨0, 0, 5⟩) 0 1).1.allowed
      = true ∧
    (leakyBucketMemory.allowShaping defaultOptions 10 1 (some ⟨0, 0, 5⟩) 0 1).1.retryAfter
      = 5 := by
  constructor <;> norm_num [leakyBucketMemory.allowShaping]

-- ═══ Claim theorems ══════════════════════════════════════════════════════

/-- C9: the in-process store's hash capabilities do not round-trip.  At the
failing input — `hash_set("k", "f"="v")` on an empty store followed by
`hash_get_all("k")` — the store returns the empty map rather than the map
containing exactly the written field: `HSet` stores nothing and `HGetAll`
returns an empty map in every branch. -/
theorem memory_store_hash_roundtrip_fails :
    MemStore.HGetAll (MemStore.HSet ⟨[]⟩ "k" [("f", "v")]) 0 "k" = [] ∧
    MemStore.HGetAll (MemStore.HSet ⟨[]⟩ "k" [("f", "v")]) 0 "k" ≠ [("f", "v")] :=
  ⟨rfl, by decide⟩

/-- C3: with the `HashTag` option enabled, the Redis sliding-window-counter
variant still builds its window keys without brace-wrapping the user key.
At the failing input (prefix `ratelimit`, key `user:123`, window index 42)
the key it reads and writes is `ratelimit:user:123:42`, whereas the
cluster-routing-aware format the claim requires — which is exactly what
`Options.FormatKeySuffix` produces and what the option's documentation says
is required for this engine — is the distinct key with the user key wrapped
in braces. -/
theorem swc_redis_keys_ignore_hash_tag :
    slidingWindowCounterRedis.windowKey ⟨"ratelimit", true, true, none⟩ "user:123" 42
      = "ratelimit:user:123:42" ∧
    Options.FormatKeySuffix ⟨"ratelimit", true, true, none⟩ "user:123" "42"
      = "ratelimit:\x7buser:123\x7d:42" ∧
    slidingWindowCounterRedis.windowKey ⟨"ratelimit", true, true, none⟩ "user:123" 42
      ≠ Options.FormatKeySuffix ⟨"ratelimit", true, true, none⟩ "user:123" "42" := by
  refine ⟨by decide, by decide, by decide⟩

/-- C2: only the fixed-window engine consults the dynamic-limit resolver.
With the resolver of the repository's own dynamic-limit tests (`premium` ↦
1000), the fixed-window decision reports `limit = 1000` as the tests expect,
but the token-bucket, GCRA and sliding-window-log decisions for the same
key report their construction-time defaults (10, 5, 10) — their `AllowN`
bodies never call `resolveLimit` — contradicting the claim and the tests. -/
theorem only_fixed_window_honors_limit_resolver :
    (fixedWindowMemory.AllowN
        ⟨"ratelimit", true, false, some (fun k => if k = "premium" then 1000 else 0)⟩
        10 60 "premium" none 0 1).1.limit = 1000 ∧
    (tokenBucketMemory.AllowN
        ⟨"ratelimit", true, false, some (fun k => if k = "premium" then 1000 else 0)⟩
        10 5 none 0 1).1.limit = 10 ∧
    (gcraMemory.AllowN (GcraEngine.new 10 5)
        ⟨"ratelimit", true, false, some (fun k => if k = "premium" then 1000 else 0)⟩
        0 0 1).1.limit = 5 ∧
    (slidingWindowMemory.AllowN
        ⟨"ratelimit", true, false, some (fun k => if k = "premium" then 1000 else 0)⟩
        10 60 [] 0 1).1.limit = 10 := by
  refine ⟨?_, ?_, ?_, ?_⟩
  · norm_num [fixedWindowMemory.AllowN, Options.resolveLimit]
  · norm_num [tokenBucketMemory.AllowN]
  · norm_num [gcraMemory.AllowN, GcraEngine.new]
  · norm_num [slidingWindowMemory.AllowN]

/-- C1 counterexample: the claim that every distributed variant executes its
decision as one atomic server-side script is false at a concrete input — the
Redis sliding-window-log `AllowN` (default options, limit 5, 60-second
window, empty stored set, `now = 0`, cost 1) issues a `ZREMRANGEBYSCORE`, a
`ZCARD` and a client-side pipeline, not a single script. -/
theorem sliding_window_redis_not_single_script :
    ¬ isSingleScript (slidingWindowRedis.AllowN defaultOptions 5 60 "user1" [] 0 1).2.2 := by
  norm_num [slidingWindowRedis.AllowN, isSingleScript, defaultOptions, Options.FormatKey]
  exact fun x h => RCmd.noConfusion h

/-- C1 amended: the Redis fixed-window, token-bucket, leaky-bucket and GCRA
variants deliver every `AllowN` decision through exactly one atomic
server-side script, for all options, state and inputs; the Redis
sliding-window-log and sliding-window-counter variants never do — every one
of their decisions is a client-side multi-command sequence (commands plus,
for the log variant's insertions, a pipeline). -/
theorem redis_variants_script_atomicity :
    (∀ o maxRequests windowSeconds key stored ttl0 now n,
      isSingleScript
        (fixedWindowRedis.AllowN o maxRequests windowSeconds key stored ttl0 now n).2.2) ∧
    (∀ o capacity refillRate key stored now n,
      isSingleScript (tokenBucketRedis.AllowN o capacity refillRate key stored now n).2.2) ∧
    (∀ o capacity leakRate mode key storedPolicing storedShaping now n,
      isSingleScript
        (leakyBucketRedis.AllowN o capacity leakRate mode key storedPolicing storedShaping now n).2) ∧
    (∀ g o key stored now n,
      isSingleScript (gcraRedis.AllowN g o key stored now n).2.2) ∧
    (∀ o maxRequests windowSeconds key scores now n,
      ¬ isSingleScript (slidingWindowRedis.AllowN o maxRequests windowSeconds key scores now n).2.2) ∧
    (∀ o maxRequests windowSeconds key prevStored currStored now n,
      ¬ isSingleScript
        (slidingWindowCounterRedis.AllowN o maxRequests windowSeconds key prevStored currStored now n).2.2) := by
  refine ⟨?_, ?_, ?_, ?_, ?_, ?_⟩
  · intro o maxRequests windowSeconds key stored ttl0 now n
    exact ⟨"fixedWindowScript", rfl⟩
  · intro o capacity refillRate key stored now n
    exact ⟨"tokenBucketScript", rfl⟩
  · intro o capacity leakRate mode key storedPolicing storedShaping now n
    cases mode
    · exact ⟨"luaPolicing", rfl⟩
    · exact ⟨"luaShaping", rfl⟩
  · intro g o key stored now n
    exact ⟨"gcraScript", rfl⟩
  · intro o maxRequests windowSeconds key scores now n
    rintro ⟨s, h⟩
    simp only [slidingWindowRedis.AllowN] at h
    split_ifs at h <;> simp only [] at h <;>
      (injection h with h1 h2; exact RCmd.noConfusion h1)
  · intro o maxRequests windowSeconds key prevStored currStored now n
    rintro ⟨s, h⟩
    simp only [slidingWindowCounterRedis.AllowN] at h
    split_ifs at h <;> simp only [List.cons_append] at h <;>
      (injection h with h1 h2; exact RCmd.noConfusion h1)

/-- C4: for every key state and cost `n ≥ 1`, both the in-memory GCRA
`AllowN` and the Redis script variant decide exactly as the spec's pseudocode
prescribes, with `emission_interval = 1/rate` and `burst_allowance =
(burst-1)·emission_interval`: they agree with `gcraSpecStep` on the
allow/deny decision, the remaining count, the retry-after seconds, and the
stored TAT afterwards (`new_tat` on allow, unchanged on denial), and report
`burst` as the limit.  For the script, an absent stored TAT reads as `now`. -/
theorem gcra_allowN_matches_spec_pseudocode (rate burst : Int) (o : Options)
    (key : String) (tat0 now : ℚ) (stored : Option ℚ) (n : Int) (hn : 1 ≤ n) :
    ((gcraMemory.AllowN (GcraEngine.new rate burst) o tat0 now n).1.allowed
        = (gcraSpecStep rate burst tat0 now n).1 ∧
      (gcraMemory.AllowN (GcraEngine.new rate burst) o tat0 now n).1.remaining
        = (gcraSpecStep rate burst tat0 now n).2.1 ∧
      (gcraMemory.AllowN (GcraEngine.new rate burst) o tat0 now n).1.retryAfter
        = (gcraSpecStep rate burst tat0 now n).2.2.1 ∧
      (gcraMemory.AllowN (GcraEngine.new rate burst) o tat0 now n).2
        = (gcraSpecStep rate burst tat0 now n).2.2.2 ∧
      (gcraMemory.AllowN (GcraEngine.new rate burst) o tat0 now n).1.limit = burst) ∧
    ((gcraRedis.AllowN (GcraEngine.new rate burst) o key stored now n).1.allowed
        = (gcraSpecStep rate burst (stored.getD now) now n).1 ∧
      (gcraRedis.AllowN (GcraEngine.new rate burst) o key stored now n).1.remaining
        = (gcraSpecStep rate burst (stored.getD now) now n).2.1 ∧
      (gcraRedis.AllowN (GcraEngine.new rate burst) o key stored now n).1.retryAfter
        = (gcraSpecStep rate burst (stored.getD now) now n).2.2.1 ∧
      ((gcraRedis.AllowN (GcraEngine.new rate burst) o key stored now n).2.1).getD now
        = (gcraSpecStep rate burst (stored.getD now) now n).2.2.2 ∧
      (gcraRedis.AllowN (GcraEngine.new rate burst) o key stored now n).1.limit = burst) := by
  have hBA : ((burst - 1 : Int) : ℚ) = (burst : ℚ) - 1 := by push_cast; ring
  have hmul : (n : ℚ) * (1 / (rate : ℚ)) = (1 / (rate : ℚ)) * (n : ℚ) := mul_comm _ _
  constructor
  · simp only [gcraMemory.AllowN, gcraSpecStep, GcraEngine.new, hBA, hmul]
    split_ifs <;> simp
  · simp only [gcraRedis.AllowN, gcraScript, gcraSpecStep, GcraEngine.new, hBA, hmul]
    split_ifs <;> simp

/-- C4 witness: the cost hypothesis holds at 1, and the theorem applies at a
concrete input (rate 10, burst 5, stored TAT 2, now 3). -/
theorem gcra_allowN_matches_spec_pseudocode_witness :
    (1 : Int) ≤ 1 ∧
    (gcraMemory.AllowN (GcraEngine.new 10 5) defaultOptions 2 3 1).1.allowed
      = (gcraSpecStep 10 5 2 3 1).1 :=
  ⟨le_refl 1,
    (gcra_allowN_matches_spec_pseudocode 10 5 defaultOptions "k" 2 3 (some 2) 1
      (le_refl 1)).1.1⟩

/-- C5 counterexample: the claim that a token-bucket `AllowN` denies with
`remaining = 0` is false for the Redis variant at a concrete input — with
capacity 10, refill rate 1, stored tokens 3 (just refilled), cost 5 — the
decision is a denial reporting `remaining = 3` (and `retry_after = 2`
seconds): the script initializes its reply's remaining to `⌊tokens⌋` and
never zeroes it in the deny branch. -/
theorem token_bucket_redis_denies_with_nonzero_remaining :
    (tokenBucketRedis.AllowN ⟨"ratelimit", true, false, none⟩ 10 1 "k"
        (some ⟨3, 0⟩) 0 5).1 = ⟨false, 3, 10, 0, 2⟩ ∧
    ((tokenBucketRedis.AllowN ⟨"ratelimit", true, false, none⟩ 10 1 "k"
        (some ⟨3, 0⟩) 0 5).1.remaining ≠ 0) := by
  constructor
  · norm_num [tokenBucketRedis.AllowN, tokenBucketScript]
  · norm_num [tokenBucketRedis.AllowN, tokenBucketScript]

/-- C5 amended: for every key state and cost `n ≥ 1`, the in-memory
token-bucket `AllowN` matches the spec's refill-then-decide pseudocode
(`tokenBucketSpecStep`) exactly, including `remaining = 0` on denial; the
Redis variant matches it on the allow/deny decision, the allowed-case
remaining, the retry-after and the post-state, but on denial reports
`remaining = ⌊post-refill tokens⌋` instead of 0; and after any operation the
stored token count of either variant never exceeds the capacity `C`. -/
theorem token_bucket_matches_spec_except_redis_deny_remaining
    (C R : Int) (o : Options) (key : String) (st : Option TokenBucketState)
    (now : ℚ) (n : Int) (hn : 1 ≤ n) :
    ((tokenBucketMemory.AllowN o C R st now n).1.allowed
        = (tokenBucketSpecStep C R (st.getD ⟨(C : ℚ), now⟩).tokens
            (st.getD ⟨(C : ℚ), now⟩).lastRefill now n).1 ∧
      (tokenBucketMemory.AllowN o C R st now n).1.remaining
        = (tokenBucketSpecStep C R (st.getD ⟨(C : ℚ), now⟩).tokens
            (st.getD ⟨(C : ℚ), now⟩).lastRefill now n).2.1 ∧
      (tokenBucketMemory.AllowN o C R st now n).1.retryAfter
        = (tokenBucketSpecStep C R (st.getD ⟨(C : ℚ), now⟩).tokens
            (st.getD ⟨(C : ℚ), now⟩).lastRefill now n).2.2.1 ∧
      (tokenBucketMemory.AllowN o C R st now n).2
        = (tokenBucketSpecStep C R (st.getD ⟨(C : ℚ), now⟩).tokens
            (st.getD ⟨(C : ℚ), now⟩).lastRefill now n).2.2.2 ∧
      (tokenBucketMemory.AllowN o C R st now n).1.limit = C) ∧
    ((tokenBucketRedis.AllowN o C R key st now n).1.allowed
        = (tokenBucketSpecStep C R (st.getD ⟨(C : ℚ), now⟩).tokens
            (st.getD ⟨(C : ℚ), now⟩).lastRefill now n).1 ∧
      ((tokenBucketRedis.AllowN o C R key st now n).1.allowed = true →
        (tokenBucketRedis.AllowN o C R key st now n).1.remaining
          = (tokenBucketSpecStep C R (st.getD ⟨(C : ℚ), now⟩).tokens
              (st.getD ⟨(C : ℚ), now⟩).lastRefill now n).2.1) ∧
      ((tokenBucketRedis.AllowN o C R key st now n).1.allowed = false →
        (tokenBucketRedis.AllowN o C R key st now n).1.remaining
          = ⌊(tokenBucketScript C R now (n : ℚ) st).2.tokens⌋) ∧
      (tokenBucketRedis.AllowN o C R key st now n).1.retryAfter
        = (tokenBucketSpecStep C R (st.getD ⟨(C : ℚ), now⟩).tokens
            (st.getD ⟨(C : ℚ), now⟩).lastRefill now n).2.2.1 ∧
      (tokenBucketRedis.AllowN o C R key st now n).2.1
        = (tokenBucketSpecStep C R (st.getD ⟨(C : ℚ), now⟩).tokens
            (st.getD ⟨(C : ℚ), now⟩).lastRefill now n).2.2.2 ∧
      (tokenBucketRedis.AllowN o C R key st now n).1.limit = C) ∧
    ((tokenBucketMemory.AllowN o C R st now n).2.tokens ≤ (C : ℚ) ∧
      (tokenBucketScript C R now (n : ℚ) st).2.tokens ≤ (C : ℚ)) := by
  have hn' : (0 : ℚ) ≤ (n : ℚ) := by exact_mod_cast le_trans zero_le_one hn
  refine ⟨?_, ?_, ?_, ?_⟩
  · simp only [tokenBucketMemory.AllowN, tokenBucketSpecStep]
    split_ifs <;> simp
  · simp only [tokenBucketRedis.AllowN, tokenBucketScript, tokenBucketSpecStep]
    split_ifs <;> simp
  · simp only [tokenBucketMemory.AllowN]
    split_ifs with h
    · simpa using le_trans (sub_le_self _ hn') (min_le_left _ _)
    · simpa using min_le_left _ _
  · simp only [tokenBucketScript]
    split_ifs with h
    · simpa using le_trans (sub_le_self _ hn') (min_le_left _ _)
    · simpa using min_le_left _ _

/-- C5 witness: the cost hypothesis holds at 1, and the theorem applies at a
concrete input (capacity 10, refill rate 2, stored tokens 4 at instant 0,
now 1). -/
theorem token_bucket_matches_spec_witness :
    (1 : Int) ≤ 1 ∧
    (tokenBucketMemory.AllowN defaultOptions 10 2 (some ⟨4, 0⟩) 1 1).1.allowed
      = (tokenBucketSpecStep 10 2 ((some (⟨4, 0⟩ : TokenBucketState)).getD
          ⟨(10 : ℚ), 1⟩).tokens ((some (⟨4, 0⟩ : TokenBucketState)).getD
          ⟨(10 : ℚ), 1⟩).lastRefill 1 1).1 :=
  ⟨le_refl 1,
    (token_bucket_matches_spec_except_redis_deny_remaining 10 2 defaultOptions "k"
      (some ⟨4, 0⟩) 1 1 (le_refl 1)).1.1⟩

/-- Helper for C10: one in-memory sliding-window-log call never grows the
stored timestamp list beyond `maxRequests`. -/
theorem slidingWindowMemory_step_length (o : Options) (maxRequests windowSeconds : Int)
    (ts : List ℚ) (now : ℚ) (n : Int)
    (h : (ts.length : Int) ≤ maxRequests) :
    (((slidingWindowMemory.AllowN o maxRequests windowSeconds ts now n).2.length : Int)
      ≤ maxRequests) := by
  have hev : (ts.dropWhile (fun t => now - t > ((windowSeconds : Int) : ℚ))).length
      ≤ ts.length := (List.dropWhile_sublist _).length_le
  simp only [slidingWindowMemory.AllowN] at *
  split_ifs with hc
  · simp only [List.length_append, List.length_replicate]
    push_cast at *
    omega
  · push_cast at *
    omega

/-- Helper for C10: the timestamp-list bound is preserved along any call
sequence of the in-memory sliding-window-log engine. -/
theorem slidingWindowMemory_run_length (o : Options) (maxRequests windowSeconds : Int)
    (calls : List (ℚ × Int)) (ts : List ℚ)
    (h : (ts.length : Int) ≤ maxRequests) :
    ((slidingWindowMemory.run o maxRequests windowSeconds calls ts).length : Int)
      ≤ maxRequests := by
  induction calls generalizing ts with
  | nil => simpa [slidingWindowMemory.run] using h
  | cons c rest ih =>
    obtain ⟨now, n⟩ := c
    simp only [slidingWindowMemory.run]
    exact ih _ (slidingWindowMemory_step_length o maxRequests windowSeconds ts now n h)

/-- C10: starting from the fresh (or reset) empty state, after any sequence
of in-memory sliding-window-log calls the stored timestamp list holds at
most `maxRequests` entries; and each single call either appends exactly `n`
copies of `now` to the evicted list (when the post-eviction count plus `n`
fits the limit, an allowed decision) or leaves it at the evicted list with a
denial. -/
theorem sliding_window_log_capacity_invariant (maxRequests windowSeconds : Int)
    (o : Options) (hmax : 1 ≤ maxRequests) :
    (∀ calls : List (ℚ × Int),
      ((slidingWindowMemory.run o maxRequests windowSeconds calls []).length : Int)
        ≤ maxRequests) ∧
    (∀ (ts : List ℚ) (now : ℚ) (n : Int),
      ((((ts.dropWhile (fun t => now - t > ((windowSeconds : Int) : ℚ))).length : Int) + n
          ≤ maxRequests →
        (slidingWindowMemory.AllowN o maxRequests windowSeconds ts now n).1.allowed = true ∧
        (slidingWindowMemory.AllowN o maxRequests windowSeconds ts now n).2
          = ts.dropWhile (fun t => now - t > ((windowSeconds : Int) : ℚ))
              ++ List.replicate n.toNat now) ∧
      (¬(((ts.dropWhile (fun t => now - t > ((windowSeconds : Int) : ℚ))).length : Int) + n
          ≤ maxRequests) →
        (slidingWindowMemory.AllowN o maxRequests windowSeconds ts now n).1.allowed = false ∧
        (slidingWindowMemory.AllowN o maxRequests windowSeconds ts now n).2
          = ts.dropWhile (fun t => now - t > ((windowSeconds : Int) : ℚ))))) := by
  constructor
  · intro calls
    exact slidingWindowMemory_run_length o maxRequests windowSeconds calls []
      (by simp; omega)
  · intro ts now n
    constructor
    · intro hc
      simp only [slidingWindowMemory.AllowN]
      rw [if_pos hc]
      exact ⟨rfl, rfl⟩
    · intro hc
      simp only [slidingWindowMemory.AllowN]
      rw [if_neg hc]
      exact ⟨rfl, rfl⟩

/-- C10 witness: the limit hypothesis holds at 2, and the invariant applies
to a concrete three-call sequence. -/
theorem sliding_window_log_capacity_invariant_witness :
    (1 : Int) ≤ 2 ∧
    ((slidingWindowMemory.run defaultOptions 2 60 [(0, 1), (1, 1), (2, 1)] []).length : Int)
      ≤ 2 :=
  ⟨by norm_num,
    (sliding_window_log_capacity_invariant 2 60 defaultOptions (by norm_num)).1
      [(0, 1), (1, 1), (2, 1)]⟩

/-- C8: for every Redis-backed engine, when the store operation underlying
`AllowN` fails, a `FailOpen` configuration yields the synthetic decision
`{allowed: true, remaining: limit - 1, limit, retry_after: 0}` with no error,
and a fail-closed configuration yields
`{allowed: false, remaining: 0, limit, retry_after: 0}` together with the
store error (the `Bool` component records whether an error is returned).
`L` is the engine's effective limit (resolved max requests, capacity, or
burst). -/
theorem redis_engines_fail_open_policy (o : Options) (L : Int) :
    ((o.failOpen = true →
        fixedWindowRedis.onStoreError o L = (⟨true, L - 1, L, 0, 0⟩, false)) ∧
      (o.failOpen = false →
        fixedWindowRedis.onStoreError o L = (⟨false, 0, L, 0, 0⟩, true))) ∧
    ((o.failOpen = true →
        slidingWindowRedis.failResult o L = (⟨true, L - 1, L, 0, 0⟩, false)) ∧
      (o.failOpen = false →
        slidingWindowRedis.failResult o L = (⟨false, 0, L, 0, 0⟩, true))) ∧
    ((o.failOpen = true →
        slidingWindowCounterRedis.failResult o L = (⟨true, L - 1, L, 0, 0⟩, false)) ∧
      (o.failOpen = false →
        slidingWindowCounterRedis.failResult o L = (⟨false, 0, L, 0, 0⟩, true))) ∧
    ((o.failOpen = true →
        tokenBucketRedis.onStoreError o L = (⟨true, L - 1, L, 0, 0⟩, false)) ∧
      (o.failOpen = false →
        tokenBucketRedis.onStoreError o L = (⟨false, 0, L, 0, 0⟩, true))) ∧
    ((o.failOpen = true →
        leakyBucketRedis.onStoreError o L = (⟨true, L - 1, L, 0, 0⟩, false)) ∧
      (o.failOpen = false →
        leakyBucketRedis.onStoreError o L = (⟨false, 0, L, 0, 0⟩, true))) ∧
    ((o.failOpen = true →
        gcraRedis.onStoreError o L = (⟨true, L - 1, L, 0, 0⟩, false)) ∧
      (o.failOpen = false →
        gcraRedis.onStoreError o L = (⟨false, 0, L, 0, 0⟩, true))) := by
  refine ⟨⟨?_, ?_⟩, ⟨?_, ?_⟩, ⟨?_, ?_⟩, ⟨?_, ?_⟩, ⟨?_, ?_⟩, ⟨?_, ?_⟩⟩ <;>
    intro h <;>
    simp [fixedWindowRedis.onStoreError, slidingWindowRedis.failResult,
      slidingWindowCounterRedis.failResult, tokenBucketRedis.onStoreError,
      leakyBucketRedis.onStoreError, gcraRedis.onStoreError, h]

/-- C8 witness: with the default (fail-open) options, the theorem applies at
limit 7 and the store-error decision of the fixed-window variant is the
synthetic allow. -/
theorem redis_engines_fail_open_policy_witness :
    defaultOptions.failOpen = true ∧
    fixedWindowRedis.onStoreError defaultOptions 7 = (⟨true, 6, 7, 0, 0⟩, false) :=
  ⟨rfl, by
    have h := (redis_engines_fail_open_policy defaultOptions 7).1.1 rfl
    norm_num at h ⊢
    exact h⟩

/-- C6 counterexample: the claim that every denied decision reports
`remaining = 0` is false at a concrete input — the Redis leaky-bucket
(policing) variant with capacity 10, leak rate 1, stored level 3 (just
leaked) and cost 20 denies while reporting `remaining = 7`, because the
policing script initializes its reply's remaining to
`max(0, ⌊capacity - level⌋)` and never zeroes it in the deny branch. -/
theorem leaky_bucket_redis_denies_with_nonzero_remaining :
    (leakyBucketRedis.AllowN ⟨"ratelimit", true, false, none⟩ 10 1
        LeakyBucketMode.policing "k" (some (3, 0)) none 0 20).1
      = ⟨false, 7, 10, 0, 20⟩ ∧
    ¬ denyZeroRemaining (leakyBucketRedis.AllowN ⟨"ratelimit", true, false, none⟩ 10 1
        LeakyBucketMode.policing "k" (some (3, 0)) none 0 20).1 := by
  have h : (leakyBucketRedis.AllowN ⟨"ratelimit", true, false, none⟩ 10 1
      LeakyBucketMode.policing "k" (some (3, 0)) none 0 20).1
      = ⟨false, 7, 10, 0, 20⟩ := by
    norm_num [leakyBucketRedis.AllowN, luaPolicing]
  refine ⟨h, ?_⟩
  simp only [denyZeroRemaining, h]
  intro hz
  have h7 := hz trivial
  norm_num at h7

/-- C6 amended: for every engine, key and cost `n ≥ 1`, every decision
satisfies `remaining ≤ limit`, and `allowed ⇒ retry_after = 0` holds for
every engine except the shaping leaky bucket; `¬allowed ⇒ remaining = 0`
holds for all in-memory engines and for the Redis fixed-window,
sliding-window-log, sliding-window-counter and GCRA variants, but not for
the Redis token-bucket and leaky-bucket script variants, which report
`floor(available capacity)` on denial.  Stored counters are assumed
nonnegative and the construction-time parameters positive, as the
constructors and the engines' own writes guarantee. -/
theorem engine_decision_invariants (o : Options) :
    (∀ (maxRequests windowSeconds : Int) (key : String) (st : Option FixedWindowState)
        (now : ℚ) (n : Int), 0 ≤ (st.getD ⟨0, now⟩).requests → 1 ≤ n → 1 ≤ maxRequests →
      denyZeroRemaining (fixedWindowMemory.AllowN o maxRequests windowSeconds key st now n).1 ∧
      remainingLeLimit (fixedWindowMemory.AllowN o maxRequests windowSeconds key st now n).1 ∧
      allowedNoRetry (fixedWindowMemory.AllowN o maxRequests windowSeconds key st now n).1) ∧
    (∀ (maxRequests windowSeconds : Int) (key : String) (stored : Option Int) (ttl0 : Int)
        (now : ℚ) (n : Int), 0 ≤ stored.getD 0 → 1 ≤ n → 1 ≤ maxRequests →
      denyZeroRemaining (fixedWindowRedis.AllowN o maxRequests windowSeconds key stored ttl0 now n).1 ∧
      remainingLeLimit (fixedWindowRedis.AllowN o maxRequests windowSeconds key stored ttl0 now n).1 ∧
      allowedNoRetry (fixedWindowRedis.AllowN o maxRequests windowSeconds key stored ttl0 now n).1) ∧
    (∀ (maxRequests windowSeconds : Int) (ts : List ℚ) (now : ℚ) (n : Int),
        1 ≤ n → 1 ≤ maxRequests →
      denyZeroRemaining (slidingWindowMemory.AllowN o maxRequests windowSeconds ts now n).1 ∧
      remainingLeLimit (slidingWindowMemory.AllowN o maxRequests windowSeconds ts now n).1 ∧
      allowedNoRetry (slidingWindowMemory.AllowN o maxRequests windowSeconds ts now n).1) ∧
    (∀ (maxRequests windowSeconds : Int) (key : String) (scores : List Int) (now : Int)
        (n : Int), 1 ≤ n → 1 ≤ maxRequests →
      denyZeroRemaining (slidingWindowRedis.AllowN o maxRequests windowSeconds key scores now n).1 ∧
      remainingLeLimit (slidingWindowRedis.AllowN o maxRequests windowSeconds key scores now n).1 ∧
      allowedNoRetry (slidingWindowRedis.AllowN o maxRequests windowSeconds key scores now n).1) ∧
    (∀ (maxRequests windowSeconds : Int) (st : Option SwcState) (now : ℚ) (n : Int),
        1 ≤ n → 1 ≤ maxRequests → 1 ≤ windowSeconds →
        0 ≤ (st.getD ⟨now, 0, 0⟩).previousCount → 0 ≤ (st.getD ⟨now, 0, 0⟩).currentCount →
      denyZeroRemaining (slidingWindowCounterMemory.AllowN o maxRequests windowSeconds st now n).1 ∧
      remainingLeLimit (slidingWindowCounterMemory.AllowN o maxRequests windowSeconds st now n).1 ∧
      allowedNoRetry (slidingWindowCounterMemory.AllowN o maxRequests windowSeconds st now n).1) ∧
    (∀ (maxRequests windowSeconds : Int) (key : String) (prevStored currStored : Option Int)
        (now : Int) (n : Int), 1 ≤ n → 1 ≤ maxRequests → 1 ≤ windowSeconds →
        0 ≤ prevStored.getD 0 → 0 ≤ currStored.getD 0 →
      denyZeroRemaining (slidingWindowCounterRedis.AllowN o maxRequests windowSeconds
        key prevStored currStored now n).1 ∧
      remainingLeLimit (slidingWindowCounterRedis.AllowN o maxRequests windowSeconds
        key prevStored currStored now n).1 ∧
      allowedNoRetry (slidingWindowCounterRedis.AllowN o maxRequests windowSeconds
        key prevStored currStored now n).1) ∧
    (∀ (capacity refillRate : Int) (st : Option TokenBucketState) (now : ℚ) (n : Int),
        1 ≤ n → 1 ≤ capacity →
      denyZeroRemaining (tokenBucketMemory.AllowN o capacity refillRate st now n).1 ∧
      remainingLeLimit (tokenBucketMemory.AllowN o capacity refillRate st now n).1 ∧
      allowedNoRetry (tokenBucketMemory.AllowN o capacity refillRate st now n).1) ∧
    (∀ (capacity refillRate : Int) (key : String) (st : Option TokenBucketState) (now : ℚ)
        (n : Int), 1 ≤ n → 1 ≤ capacity →
      remainingLeLimit (tokenBucketRedis.AllowN o capacity refillRate key st now n).1 ∧
      allowedNoRetry (tokenBucketRedis.AllowN o capacity refillRate key st now n).1) ∧
    (∀ (capacity leakRate : Int) (st : Option LeakyBucketState) (now : ℚ) (n : Int),
        1 ≤ n → 1 ≤ capacity →
      denyZeroRemaining (leakyBucketMemory.allowPolicing o capacity leakRate st now n).1 ∧
      remainingLeLimit (leakyBucketMemory.allowPolicing o capacity leakRate st now n).1 ∧
      allowedNoRetry (leakyBucketMemory.allowPolicing o capacity leakRate st now n).1) ∧
    (∀ (capacity leakRate : Int) (st : Option LeakyBucketState) (now : ℚ) (n : Int),
        1 ≤ n → 1 ≤ capacity → 1 ≤ leakRate →
      denyZeroRemaining (leakyBucketMemory.allowShaping o capacity leakRate st now n).1 ∧
      remainingLeLimit (leakyBucketMemory.allowShaping o capacity leakRate st now n).1) ∧
    (∀ (capacity leakRate : Int) (key : String) (storedPolicing : Option (ℚ × ℚ))
        (storedShaping : Option ℚ) (now : ℚ) (n : Int), 1 ≤ n → 1 ≤ capacity →
      remainingLeLimit (leakyBucketRedis.AllowN o capacity leakRate
        LeakyBucketMode.policing key storedPolicing storedShaping now n).1 ∧
      allowedNoRetry (leakyBucketRedis.AllowN o capacity leakRate
        LeakyBucketMode.policing key storedPolicing storedShaping now n).1) ∧
    (∀ (capacity leakRate : Int) (key : String) (storedPolicing : Option (ℚ × ℚ))
        (storedShaping : Option ℚ) (now : ℚ) (n : Int),
        1 ≤ n → 1 ≤ capacity → 1 ≤ leakRate →
      remainingLeLimit (leakyBucketRedis.AllowN o capacity leakRate
        LeakyBucketMode.shaping key storedPolicing storedShaping now n).1) ∧
    (∀ (rate burst : Int) (tat0 now : ℚ) (n : Int), 1 ≤ n → 1 ≤ rate → 1 ≤ burst →
      denyZeroRemaining (gcraMemory.AllowN (GcraEngine.new rate burst) o tat0 now n).1 ∧
      remainingLeLimit (gcraMemory.AllowN (GcraEngine.new rate burst) o tat0 now n).1 ∧
      allowedNoRetry (gcraMemory.AllowN (GcraEngine.new rate burst) o tat0 now n).1) ∧
    (∀ (rate burst : Int) (key : String) (stored : Option ℚ) (now : ℚ) (n : Int),
        1 ≤ n → 1 ≤ rate → 1 ≤ burst →
      denyZeroRemaining (gcraRedis.AllowN (GcraEngine.new rate burst) o key stored now n).1 ∧
      remainingLeLimit (gcraRedis.AllowN (GcraEngine.new rate burst) o key stored now n).1 ∧
      allowedNoRetry (gcraRedis.AllowN (GcraEngine.new rate burst) o key stored now n).1) := by
  refine ⟨?_, ?_, ?_, ?_, ?_, ?_, ?_, ?_, ?_, ?_, ?_, ?_, ?_, ?_⟩
  · exact fun mr ws key st now n h1 h2 h3 =>
      fixedWindowMemory_result_inv o mr ws key st now n h1 h2 h3
  · exact fun mr ws key stored ttl0 now n h1 h2 h3 =>
      fixedWindowRedis_result_inv o mr ws key stored ttl0 now n h1 h2 h3
  · exact fun mr ws ts now n h1 h2 =>
      slidingWindowMemory_result_inv o mr ws ts now n h1 h2
  · exact fun mr ws key scores now n h1 h2 =>
      slidingWindowRedis_result_inv o mr ws key scores now n h1 h2
  · exact fun mr ws st now n h1 h2 h3 h4 h5 =>
      slidingWindowCounterMemory_result_inv o mr ws st now n h1 h2 h3 h4 h5
  · exact fun mr ws key ps cs now n h1 h2 h3 h4 h5 =>
      slidingWindowCounterRedis_result_inv o mr ws key ps cs now n h1 h2 h3 h4 h5
  · exact fun c r st now n h1 h2 =>
      tokenBucketMemory_result_inv o c r st now n h1 h2
  · exact fun c r key st now n h1 h2 =>
      tokenBucketRedis_result_inv o c r key st now n h1 h2
  · exact fun c l st now n h1 h2 =>
      leakyBucketMemory_policing_result_inv o c l st now n h1 h2
  · exact fun c l st now n h1 h2 h3 =>
      leakyBucketMemory_shaping_result_inv o c l st now n h1 h2 h3
  · exact fun c l key sp ss now n h1 h2 =>
      leakyBucketRedis_policing_result_inv o c l key sp ss now n h1 h2
  · exact fun c l key sp ss now n h1 h2 h3 =>
      leakyBucketRedis_shaping_remaining_le o c l key sp ss now n h1 h2 h3
  · exact fun rate burst tat0 now n h1 h2 h3 =>
      gcraMemory_result_inv rate burst o tat0 now n h1 h2 h3
  · exact fun rate burst key stored now n h1 h2 h3 =>
      gcraRedis_result_inv rate burst o key stored now n h1 h2 h3

/-- C6 witness: the hypotheses hold at a concrete instance (fresh state,
cost 1, limit 10) and the theorem delivers the three invariants for the
in-memory fixed-window decision there. -/
theorem engine_decision_invariants_witness :
    ((0 : Int) ≤ ((none : Option FixedWindowState).getD ⟨0, 0⟩).requests ∧
      (1 : Int) ≤ 1 ∧ (1 : Int) ≤ 10) ∧
    (denyZeroRemaining (fixedWindowMemory.AllowN defaultOptions 10 60 "k" none 0 1).1 ∧
      remainingLeLimit (fixedWindowMemory.AllowN defaultOptions 10 60 "k" none 0 1).1 ∧
      allowedNoRetry (fixedWindowMemory.AllowN defaultOptions 10 60 "k" none 0 1).1) :=
  ⟨⟨le_refl 0, le_refl 1, by norm_num⟩,
    (engine_decision_invariants defaultOptions).1 10 60 "k" none 0 1
      (le_refl 0) (le_refl 1) (by norm_num)⟩

/-- C7: for every key and cost `n`, the shaping leaky bucket allows exactly
when the clamped queue depth `(next_free - now)·L` plus `n` fits the
capacity, in which case `retry_after` carries the queue delay
`next_free - now` (always `≥ 0`) and the next-free slot advances by `n/L`;
otherwise it denies with `retry_after = 0`.  The Redis shaping script carries
the same delay truncated to milliseconds on an allowed decision and 0 on a
denial.  Shaping is the only variant pairing a nonzero `retry_after` with
`allowed = true`: a concrete shaping decision does so, while every other
engine variant (memory and Redis) satisfies `allowed ⇒ retry_after = 0`
unconditionally. -/
theorem shaping_delay_on_allow_and_uniqueness :
    (∀ (o : Options) (capacity leakRate : Int) (st : Option LeakyBucketState)
        (now : ℚ) (n : Int),
      (((if (st.getD ⟨0, now, now⟩).nextFree < now then now
          else (st.getD ⟨0, now, now⟩).nextFree) - now) * ((leakRate : Int) : ℚ)
          + ((n : Int) : ℚ) ≤ ((capacity : Int) : ℚ) →
        (leakyBucketMemory.allowShaping o capacity leakRate st now n).1.allowed = true ∧
        (leakyBucketMemory.allowShaping o capacity leakRate st now n).1.retryAfter
          = (if (st.getD ⟨0, now, now⟩).nextFree < now then now
              else (st.getD ⟨0, now, now⟩).nextFree) - now ∧
        0 ≤ (leakyBucketMemory.allowShaping o capacity leakRate st now n).1.retryAfter ∧
        (leakyBucketMemory.allowShaping o capacity leakRate st now n).2.nextFree
          = (if (st.getD ⟨0, now, now⟩).nextFree < now then now
              else (st.getD ⟨0, now, now⟩).nextFree)
            + ((n : Int) : ℚ) / ((leakRate : Int) : ℚ)) ∧
      (¬ (((if (st.getD ⟨0, now, now⟩).nextFree < now then now
          else (st.getD ⟨0, now, now⟩).nextFree) - now) * ((leakRate : Int) : ℚ)
          + ((n : Int) : ℚ) ≤ ((capacity : Int) : ℚ)) →
        (leakyBucketMemory.allowShaping o capacity leakRate st now n).1.allowed = false ∧
        (leakyBucketMemory.allowShaping o capacity leakRate st now n).1.retryAfter = 0)) ∧
    (∀ (o : Options) (capacity leakRate : Int) (key : String)
        (storedPolicing : Option (ℚ × ℚ)) (storedShaping : Option ℚ) (now : ℚ) (n : Int),
      ((leakyBucketRedis.AllowN o capacity leakRate LeakyBucketMode.shaping key
          storedPolicing storedShaping now n).1.allowed = true →
        (leakyBucketRedis.AllowN o capacity leakRate LeakyBucketMode.shaping key
          storedPolicing storedShaping now n).1.retryAfter
          = ((⌊((if storedShaping.getD now < now then now else storedShaping.getD now) - now)
              * 1000⌋ : Int) : ℚ) / 1000) ∧
      ((leakyBucketRedis.AllowN o capacity leakRate LeakyBucketMode.shaping key
          storedPolicing storedShaping now n).1.allowed = false →
        (leakyBucketRedis.AllowN o capacity leakRate LeakyBucketMode.shaping key
          storedPolicing storedShaping now n).1.retryAfter = 0)) ∧
    ((leakyBucketMemory.allowShaping defaultOptions 10 1 (some ⟨0, 0, 5⟩) 0 1).1.allowed
        = true ∧
      (leakyBucketMemory.allowShaping defaultOptions 10 1 (some ⟨0, 0, 5⟩) 0 1).1.retryAfter
        = 5) ∧
    (∀ (o : Options) (maxRequests windowSeconds : Int) (key : String)
        (st : Option FixedWindowState) (now : ℚ) (n : Int),
      allowedNoRetry (fixedWindowMemory.AllowN o maxRequests windowSeconds key st now n).1) ∧
    (∀ (o : Options) (maxRequests windowSeconds : Int) (key : String) (stored : Option Int)
        (ttl0 : Int) (now : ℚ) (n : Int),
      allowedNoRetry (fixedWindowRedis.AllowN o maxRequests windowSeconds key stored ttl0 now n).1) ∧
    (∀ (o : Options) (maxRequests windowSeconds : Int) (ts : List ℚ) (now : ℚ) (n : Int),
      allowedNoRetry (slidingWindowMemory.AllowN o maxRequests windowSeconds ts now n).1) ∧
    (∀ (o : Options) (maxRequests windowSeconds : Int) (key : String) (scores : List Int)
        (now : Int) (n : Int),
      allowedNoRetry (slidingWindowRedis.AllowN o maxRequests windowSeconds key scores now n).1) ∧
    (∀ (o : Options) (maxRequests windowSeconds : Int) (st : Option SwcState) (now : ℚ)
        (n : Int),
      allowedNoRetry (slidingWindowCounterMemory.AllowN o maxRequests windowSeconds st now n).1) ∧
    (∀ (o : Options) (maxRequests windowSeconds : Int) (key : String)
        (prevStored currStored : Option Int) (now : Int) (n : Int),
      allowedNoRetry (slidingWindowCounterRedis.AllowN o maxRequests windowSeconds
        key prevStored currStored now n).1) ∧
    (∀ (o : Options) (capacity refillRate : Int) (st : Option TokenBucketState) (now : ℚ)
        (n : Int),
      allowedNoRetry (tokenBucketMemory.AllowN o capacity refillRate st now n).1) ∧
    (∀ (o : Options) (capacity refillRate : Int) (key : String)
        (st : Option TokenBucketState) (now : ℚ) (n : Int),
      allowedNoRetry (tokenBucketRedis.AllowN o capacity refillRate key st now n).1) ∧
    (∀ (o : Options) (capacity leakRate : Int) (st : Option LeakyBucketState) (now : ℚ)
        (n : Int),
      allowedNoRetry (leakyBucketMemory.allowPolicing o capacity leakRate st now n).1) ∧
    (∀ (o : Options) (capacity leakRate : Int) (key : String)
        (storedPolicing : Option (ℚ × ℚ)) (storedShaping : Option ℚ) (now : ℚ) (n : Int),
      allowedNoRetry (leakyBucketRedis.AllowN o capacity leakRate
        LeakyBucketMode.policing key storedPolicing storedShaping now n).1) ∧
    (∀ (g : GcraEngine) (o : Options) (tat0 now : ℚ) (n : Int),
      allowedNoRetry (gcraMemory.AllowN g o tat0 now n).1) ∧
    (∀ (g : GcraEngine) (o : Options) (key : String) (stored : Option ℚ) (now : ℚ)
        (n : Int),
      allowedNoRetry (gcraRedis.AllowN g o key stored now n).1) := by
  refine ⟨shaping_char, shaping_redis_char, shaping_positive_delay_example,
    fixedWindowMemory_allowed_no_retry, fixedWindowRedis_allowed_no_retry,
    slidingWindowMemory_allowed_no_retry, slidingWindowRedis_allowed_no_retry,
    slidingWindowCounterMemory_allowed_no_retry, slidingWindowCounterRedis_allowed_no_retry,
    tokenBucketMemory_allowed_no_retry, tokenBucketRedis_allowed_no_retry,
    leakyBucketMemory_policing_allowed_no_retry, leakyBucketRedis_policing_allowed_no_retry,
    gcraMemory_allowed_no_retry, gcraRedis_allowed_no_retry⟩

/-- C7 witness: at a concrete shaping state (next free slot at instant 5,
now 0, capacity 10, leak rate 1, cost 1) the admission condition holds and
the theorem yields an allowed decision whose retry delay equals the queue
delay 5. -/
theorem shaping_delay_on_allow_witness :
    (((if (5 : ℚ) < 0 then (0 : ℚ) else 5) - 0) * ((1 : Int) : ℚ) + ((1 : Int) : ℚ)
        ≤ ((10 : Int) : ℚ)) ∧
    (leakyBucketMemory.allowShaping defaultOptions 10 1 (some ⟨0, 0, 5⟩) 0 1).1.allowed
      = true :=
  ⟨by norm_num,
    ((shaping_delay_on_allow_and_uniqueness.1 defaultOptions 10 1 (some ⟨0, 0, 5⟩) 0 1).1
      (by norm_num)).1⟩

end GoRateLimit
